import Mathlib

/-!
TerrainRenderer (src/TerrainRenderer.cpp).

A shallow embedding of `fly::TerrainRenderer`: the derived sizes computed by
`reset`, the two loops of `updateChunk` (vertex grid and triangle indices),
the slot arithmetic, the two partial buffer writes and the draw submission.

Conventions of the embedding

* C++ `int` values are mathematical integers (`Int`).  Signed overflow is
  undefined behaviour in C++, so the embedding speaks about executions in
  which every `int` expression stays inside the range of `int`.
* `float` values are rationals (`ℚ`): positions and texture coordinates are
  computed in exact arithmetic.
* The data store of a GL buffer object is a list with one entry per element
  (one `Vertex`, one `GLuint`); an entry is `none` while its content is
  undefined (`glBufferData` with a null data pointer).
* Division by zero (`m_detail = 0` in the vertex loop) is not given a meaning of
  its own; statements about positions take `detail ≥ 1`.
* The GL context keeps an error flag (`glError`) and the embedding records
  the buffer and draw calls that reach the context (`glCalls`).  Binding
  calls, shader and texture calls are not part of the embedding, and neither
  is `ASSERT_GL_ERRORS` (a macro of Utility.h, which is not among the
  sources): a GL error shows as the flag being set.
* The vertex buffer and the index buffer of the renderer are the buffers bound
  to GL_ARRAY_BUFFER and GL_ELEMENT_ARRAY_BUFFER whenever its operations run
  (the constructor binds them and the class never binds another buffer).
* A failing `assert` ends the call.  A read of `chunk_heights` past its end
  (unchecked `operator[]`) is undefined behaviour: the embedding marks it with
  `Fault.heightsOutOfBounds` and follows the program no further, so this mark
  says nothing about what the program does from there on (a run may well go on
  and write both buffers).
-/

namespace fly

/-! ## Data model -/

/-- Modelled from the spec: `sq` is declared in Utility.h, which is not among
the sources; the spec gives `chunkCount = (2*radius - 1)^2` for
`sq(2 * radius - 1)` and `verticesPerChunk = (detail + 1)^2` for
`sq(detail + 1)`, so `sq` squares its argument. -/
def sq (x : Int) : Int := x * x

/-- Modelled from the spec: `Vertex` is declared in TerrainRenderer.h, which is
not among the sources; the spec gives a position of three floats (x, y,
height) followed by a texture coordinate of two floats, and `updateChunk`
builds it as `{{x, y, height}, {x - coord_x, y - coord_y}}`. -/
structure Vertex where
  position : ℚ × ℚ × ℚ
  texcoords : ℚ × ℚ
deriving DecidableEq

/-- Modelled from the spec: `sizeof(Vertex)`, five 4-byte floats. -/
def sizeofVertex : Int := 20

/-- The value of `sizeof(GLuint)`; a `GLuint` is a 32-bit unsigned integer. -/
def sizeofGLuint : Int := 4

/-- Buffer binding targets used by the renderer. -/
inductive BufferTarget where
  | GL_ARRAY_BUFFER
  | GL_ELEMENT_ARRAY_BUFFER
deriving DecidableEq

/-- Primitive modes of `glDrawElements`. -/
inductive DrawMode where
  | GL_POINTS
  | GL_LINES
  | GL_TRIANGLES
deriving DecidableEq

/-- The buffer and draw calls that the renderer sends to the GL context, with
their size arguments in bytes as in the source. -/
inductive GLCall where
  | glBufferData (target : BufferTarget) (size : Int)
  | glBufferSubData (target : BufferTarget) (offset : Int) (size : Int)
  | glDrawElements (mode : DrawMode) (count : Int) (indices : Int)
deriving DecidableEq

/-- The members of `TerrainRenderer` that the three operations read or write,
together with the GL state they act on: the data stores of the two buffer
objects, the context's error flag and the calls sent so far. -/
structure TerrainRenderer where
  m_radius : Int
  m_detail : Int
  m_chunks : Int
  m_elementsPerChunk : Int
  m_verticesPerChunk : Int
  vertexBuffer : List (Option Vertex)
  elementBuffer : List (Option Nat)
  glError : Bool
  glCalls : List GLCall

/-! ## GL buffer operations -/

/-- The call `glBufferData(target, size, nullptr, usage)` on a store whose
elements are `elemSize` bytes wide: a negative `size` raises GL_INVALID_VALUE
and keeps the old store; otherwise the old store is deleted and a new one of
`size` bytes with undefined contents is created (running out of memory is not
modelled).  The second component is the error raised. -/
def bufferData {α : Type} (elemSize : Int) (size : Int) (old : List (Option α)) :
    List (Option α) × Bool :=
  if size < 0 then (old, true)
  else (List.replicate (size / elemSize).toNat none, false)

/-- Replace the `count` elements of a store that start at element `pos` by the
leading elements of `data`; an element read past the end of `data` is
undefined. -/
def writeAt {α : Type} (store : List (Option α)) (pos count : Nat) (data : List α) :
    List (Option α) :=
  store.mapIdx (fun k old => if pos ≤ k ∧ k < pos + count then data[k - pos]? else old)

/-- The call `glBufferSubData(target, offset, size, data)` on a store whose
elements are `elemSize` bytes wide: GL_INVALID_VALUE is raised, and the store
is left as it is, when `offset` or `size` is negative or `offset + size`
exceeds the size of the store; otherwise the `size` bytes starting at `offset`
are replaced by the first `size` bytes of `data`.  The second component is the
error raised. -/
def bufferSubData {α : Type} (elemSize : Int) (store : List (Option α))
    (offset size : Int) (data : List α) : List (Option α) × Bool :=
  if offset < 0 ∨ size < 0 ∨ elemSize * (store.length : Int) < offset + size then
    (store, true)
  else
    (writeAt store (offset / elemSize).toNat (size / elemSize).toNat data, false)

/-! ## reset -/

/-- The method `TerrainRenderer::reset(int radius, int detail)`. -/
def reset (t : TerrainRenderer) (radius detail : Int) : TerrainRenderer :=
  let m_chunks := sq (2 * radius - 1)
  let m_elementsPerChunk := 2 * 3 * sq detail
  let m_verticesPerChunk := sq (detail + 1)
  let vb := bufferData sizeofVertex (sizeofVertex * m_verticesPerChunk * m_chunks)
    t.vertexBuffer
  let eb := bufferData sizeofGLuint (sizeofGLuint * m_elementsPerChunk * m_chunks)
    t.elementBuffer
  { m_radius := radius
    m_detail := detail
    m_chunks := m_chunks
    m_elementsPerChunk := m_elementsPerChunk
    m_verticesPerChunk := m_verticesPerChunk
    vertexBuffer := vb.1
    elementBuffer := eb.1
    glError := t.glError || vb.2 || eb.2
    glCalls := t.glCalls ++
      [GLCall.glBufferData BufferTarget.GL_ARRAY_BUFFER
          (sizeofVertex * m_verticesPerChunk * m_chunks),
       GLCall.glBufferData BufferTarget.GL_ELEMENT_ARRAY_BUFFER
          (sizeofGLuint * m_elementsPerChunk * m_chunks)] }

/-! ## draw -/

/-- The method `TerrainRenderer::draw()`: one call
`glDrawElements(GL_TRIANGLES, m_elementsPerChunk * m_chunks, GL_UNSIGNED_INT, 0)`.
GL raises GL_INVALID_VALUE when the count is negative. -/
def draw (t : TerrainRenderer) : TerrainRenderer :=
  { t with
    glError := t.glError || decide (t.m_elementsPerChunk * t.m_chunks < 0)
    glCalls := t.glCalls ++
      [GLCall.glDrawElements DrawMode.GL_TRIANGLES (t.m_elementsPerChunk * t.m_chunks) 0] }

/-! ## updateChunk -/

/-- The points at which the embedding of `updateChunk` stops before the buffer
writes: the two assertions, which end the call, and the read past the end of
`chunk_heights`, from which on the behaviour of the program is undefined. -/
inductive Fault where
  /-- the read `chunk_heights[c]` with `c` past the end of the vector: undefined behaviour,
  the program is not followed further -/
  | heightsOutOfBounds
  /-- the assertion `elements.size() == m_elementsPerChunk` -/
  | assertElements
  /-- the assertion `vertices.size() == m_verticesPerChunk` -/
  | assertVertices
deriving DecidableEq

/-- Body of the inner vertex loop at indices `i`, `j`, with the running counter
`c` and the vector `vertices` as loop state:
`x = coord_x + 1.0f * i / (float)m_detail - 0.5f`, likewise `y`,
`height = chunk_heights[c]`, then the `push_back` and `++c`.  The read is an
unchecked `operator[]`: with `c` past the end its behaviour is undefined, and
the embedding stops there with `Fault.heightsOutOfBounds`. -/
def vertexBody (m_detail coord_x coord_y : Int) (chunk_heights : List ℚ) (i : Nat)
    (st : Nat × List Vertex) (j : Nat) : Except Fault (Nat × List Vertex) :=
  let x : ℚ := (coord_x : ℚ) + 1 * (i : ℚ) / (m_detail : ℚ) - 1 / 2
  let y : ℚ := (coord_y : ℚ) + 1 * (j : ℚ) / (m_detail : ℚ) - 1 / 2
  match chunk_heights[st.1]? with
  | none => Except.error Fault.heightsOutOfBounds
  | some height =>
    Except.ok (st.1 + 1,
      st.2 ++ [{ position := (x, y, height), texcoords := (x - coord_x, y - coord_y) }])

/-- The inner vertex loop `for (int j = 0; j <= m_detail; ++j, ++c)`. -/
def vertexRow (m_detail coord_x coord_y : Int) (chunk_heights : List ℚ)
    (st : Nat × List Vertex) (i : Nat) : Except Fault (Nat × List Vertex) :=
  (List.range (m_detail + 1).toNat).foldlM
    (vertexBody m_detail coord_x coord_y chunk_heights i) st

/-- The outer vertex loop `for (int i = 0, c = 0; i <= m_detail; ++i)`, giving the
final counter and the vector `vertices`. -/
def vertexLoop (m_detail coord_x coord_y : Int) (chunk_heights : List ℚ) :
    Except Fault (Nat × List Vertex) :=
  (List.range (m_detail + 1).toNat).foldlM
    (vertexRow m_detail coord_x coord_y chunk_heights) (0, [])

/-- Conversion of an `int` to `GLuint` (`elements.push_back(int)`): the value
itself when it is not negative, the value plus 2^32 otherwise. -/
def toGLuint (x : Int) : Nat :=
  if 0 ≤ x then x.toNat else (x + 4294967296).toNat

/-- Body of the inner index loop at sub-cell `i`, `j`: the six `push_back`s. -/
def elementBody (m_detail vertex_offset : Int) (i : Nat) (elements : List Nat) (j : Nat) :
    List Nat :=
  elements ++
    [toGLuint (vertex_offset + (m_detail + 1) * i + j),
     toGLuint (vertex_offset + (m_detail + 1) * i + j + 1),
     toGLuint (vertex_offset + (m_detail + 1) * (i + 1) + j),
     toGLuint (vertex_offset + (m_detail + 1) * (i + 1) + j + 1),
     toGLuint (vertex_offset + (m_detail + 1) * i + j + 1),
     toGLuint (vertex_offset + (m_detail + 1) * (i + 1) + j)]

/-- The inner index loop `for (int j = 0; j < m_detail; ++j)`. -/
def elementRow (m_detail vertex_offset : Int) (elements : List Nat) (i : Nat) : List Nat :=
  (List.range m_detail.toNat).foldl (elementBody m_detail vertex_offset i) elements

/-- The outer index loop `for (int i = 0, vertex_offset = ...; i < m_detail; ++i)`,
giving the vector `elements`. -/
def elementLoop (m_detail vertex_offset : Int) : List Nat :=
  (List.range m_detail.toNat).foldl (elementRow m_detail vertex_offset) []

/-- The local `offset` of `updateChunk`:
`(chunk_x + m_radius - 1) * (2 * m_radius - 1) + (chunk_y + m_radius - 1)`. -/
def chunkOffset (m_radius chunk_x chunk_y : Int) : Int :=
  (chunk_x + m_radius - 1) * (2 * m_radius - 1) + (chunk_y + m_radius - 1)

/-- The method `TerrainRenderer::updateChunk(chunk_x, chunk_y, coord_x, coord_y,
chunk_heights)`: the vertex loop, the offset, the index loop, the two
assertions and the two `glBufferSubData` calls. -/
def updateChunk (t : TerrainRenderer) (chunk_x chunk_y coord_x coord_y : Int)
    (chunk_heights : List ℚ) : Except Fault TerrainRenderer :=
  match vertexLoop t.m_detail coord_x coord_y chunk_heights with
  | Except.error e => Except.error e
  | Except.ok (_, vertices) =>
    let offset := chunkOffset t.m_radius chunk_x chunk_y
    let elements := elementLoop t.m_detail (t.m_verticesPerChunk * offset)
    if (elements.length : Int) ≠ t.m_elementsPerChunk then Except.error Fault.assertElements
    else if (vertices.length : Int) ≠ t.m_verticesPerChunk then
      Except.error Fault.assertVertices
    else
      let vb := bufferSubData sizeofVertex t.vertexBuffer
        (sizeofVertex * t.m_verticesPerChunk * offset)
        (sizeofVertex * t.m_verticesPerChunk) vertices
      let eb := bufferSubData sizeofGLuint t.elementBuffer
        (sizeofGLuint * t.m_elementsPerChunk * offset)
        (sizeofGLuint * t.m_elementsPerChunk) elements
      Except.ok
        { t with
          vertexBuffer := vb.1
          elementBuffer := eb.1
          glError := t.glError || vb.2 || eb.2
          glCalls := t.glCalls ++
            [GLCall.glBufferSubData BufferTarget.GL_ARRAY_BUFFER
                (sizeofVertex * t.m_verticesPerChunk * offset)
                (sizeofVertex * t.m_verticesPerChunk),
             GLCall.glBufferSubData BufferTarget.GL_ELEMENT_ARRAY_BUFFER
                (sizeofGLuint * t.m_elementsPerChunk * offset)
                (sizeofGLuint * t.m_elementsPerChunk)] }

/-- A renderer state used for concrete evaluations: members zero, both stores
empty, no error, no calls. -/
def blank : TerrainRenderer :=
  { m_radius := 0, m_detail := 0, m_chunks := 0, m_elementsPerChunk := 0,
    m_verticesPerChunk := 0, vertexBuffer := [], elementBuffer := [],
    glError := false, glCalls := [] }

/-- A sequence of `updateChunk` calls, given by their arguments. -/
structure ChunkUpdate where
  chunk_x : Int
  chunk_y : Int
  coord_x : Int
  coord_y : Int
  chunk_heights : List ℚ

/-- Perform the calls of a sequence one after the other; a call that ends in
a fault ends the sequence. -/
def updateChunks (t : TerrainRenderer) : List ChunkUpdate → Except Fault TerrainRenderer
  | [] => Except.ok t
  | u :: us =>
    match updateChunk t u.chunk_x u.chunk_y u.coord_x u.coord_y u.chunk_heights with
    | Except.error e => Except.error e
    | Except.ok t' => updateChunks t' us

/-! ## Specification vocabulary -/

/-- The state is one that `reset(radius, detail)` configures: the members hold
what `reset` stores and both stores have the sizes `reset` allocates. -/
def Configured (t : TerrainRenderer) (radius detail : Int) : Prop :=
  t.m_radius = radius ∧ t.m_detail = detail ∧
  t.m_chunks = sq (2 * radius - 1) ∧
  t.m_elementsPerChunk = 2 * 3 * sq detail ∧
  t.m_verticesPerChunk = sq (detail + 1) ∧
  (t.vertexBuffer.length : Int) = t.m_verticesPerChunk * t.m_chunks ∧
  (t.elementBuffer.length : Int) = t.m_elementsPerChunk * t.m_chunks

instance (t : TerrainRenderer) (radius detail : Int) : Decidable (Configured t radius detail) := by
  unfold Configured
  infer_instance

/-- The vertex that the loop body builds at grid point `(i, j)` from a height. -/
def gridVertex (m_detail coord_x coord_y : Int) (i j : Nat) (height : ℚ) : Vertex :=
  { position := ((coord_x : ℚ) + 1 * (i : ℚ) / (m_detail : ℚ) - 1 / 2,
                 (coord_y : ℚ) + 1 * (j : ℚ) / (m_detail : ℚ) - 1 / 2, height)
    texcoords := ((coord_x : ℚ) + 1 * (i : ℚ) / (m_detail : ℚ) - 1 / 2 - coord_x,
                  (coord_y : ℚ) + 1 * (j : ℚ) / (m_detail : ℚ) - 1 / 2 - coord_y) }

/-- The vertex at local position `c` of a chunk whose rows have `n` vertices. -/
def vertexAt (m_detail coord_x coord_y : Int) (chunk_heights : List ℚ) (n c : Nat) : Vertex :=
  gridVertex m_detail coord_x coord_y (c / n) (c % n) (chunk_heights.getD c 0)

/-- Closed form of the vertex block of a chunk. -/
def chunkVertices (m_detail coord_x coord_y : Int) (chunk_heights : List ℚ) : List Vertex :=
  (List.range ((m_detail + 1).toNat * (m_detail + 1).toNat)).map
    (vertexAt m_detail coord_x coord_y chunk_heights (m_detail + 1).toNat)

/-- The `k`-th of the six indices pushed for sub-cell `(i, j)`. -/
def cellElement (m_detail vertex_offset : Int) (i j k : Nat) : Nat :=
  match k with
  | 0 => toGLuint (vertex_offset + (m_detail + 1) * i + j)
  | 1 => toGLuint (vertex_offset + (m_detail + 1) * i + j + 1)
  | 2 => toGLuint (vertex_offset + (m_detail + 1) * (i + 1) + j)
  | 3 => toGLuint (vertex_offset + (m_detail + 1) * (i + 1) + j + 1)
  | 4 => toGLuint (vertex_offset + (m_detail + 1) * i + j + 1)
  | _ => toGLuint (vertex_offset + (m_detail + 1) * (i + 1) + j)

/-- The index at local position `p` of a chunk whose rows have `m` sub-cells. -/
def elementAt (m_detail vertex_offset : Int) (m p : Nat) : Nat :=
  cellElement m_detail vertex_offset (p / 6 / m) (p / 6 % m) (p % 6)

theorem vertexBody_ok (d x y : Int) (h : List ℚ) (i j c : Nat) (vs : List Vertex)
    (hc : c < h.length) :
    vertexBody d x y h i (c, vs) j
      = Except.ok (c + 1, vs ++ [gridVertex d x y i j (h.getD c 0)]) := by
  simp [vertexBody, gridVertex, List.getElem?_eq_getElem hc, List.getD_eq_getElem?_getD]

theorem vertexBody_error (d x y : Int) (h : List ℚ) (i j c : Nat) (vs : List Vertex)
    (hc : h.length ≤ c) :
    vertexBody d x y h i (c, vs) j = Except.error Fault.heightsOutOfBounds := by
  simp [vertexBody, List.getElem?_eq_none hc]

theorem vertexAt_grid (d x y : Int) (h : List ℚ) (n i j : Nat) (hj : j < n) :
    vertexAt d x y h n (i * n + j) = gridVertex d x y i j (h.getD (i * n + j) 0) := by
  have e1 : (i * n + j) / n = i := by
    rw [Nat.add_comm, Nat.add_mul_div_right _ _ (by omega), Nat.div_eq_of_lt hj]; simp
  have e2 : (i * n + j) % n = j := by
    rw [Nat.add_comm, Nat.add_mul_mod_self_right, Nat.mod_eq_of_lt hj]
  simp [vertexAt, e1, e2]

theorem vertexRow_fold (d x y : Int) (h : List ℚ) (n i : Nat) (m : Nat) (hm : m ≤ n)
    (vs : List Vertex) (hi : i * n ≤ h.length) :
    (List.range m).foldlM (vertexBody d x y h i) (i * n, vs)
      = if i * n + m ≤ h.length then
          Except.ok (i * n + m,
            vs ++ (List.range m).map (fun j => vertexAt d x y h n (i * n + j)))
        else Except.error Fault.heightsOutOfBounds := by
  induction m with
  | zero => simp [pure, Except.pure, hi]
  | succ m ih =>
    rw [List.range_succ, List.foldlM_append, ih (by omega)]
    by_cases h1 : i * n + m ≤ h.length
    · rw [if_pos h1]
      by_cases h2 : i * n + (m + 1) ≤ h.length
      · rw [if_pos h2]
        simp [bind, Except.bind, vertexBody_ok d x y h i m (i * n + m) _ (by omega), pure,
          Except.pure, vertexAt_grid d x y h n i m (by omega), Nat.add_assoc]
      · rw [if_neg h2]
        simp [bind, Except.bind, vertexBody_error d x y h i m (i * n + m) _ (by omega)]
    · rw [if_neg h1, if_neg (by omega)]
      rfl

theorem vertexLoop_fold (d x y : Int) (h : List ℚ) (n : Nat) (hn : n = (d + 1).toNat)
    (m : Nat) :
    (List.range m).foldlM (vertexRow d x y h) (0, [])
      = if m * n ≤ h.length then
          Except.ok (m * n, (List.range (m * n)).map (vertexAt d x y h n))
        else Except.error Fault.heightsOutOfBounds := by
  induction m with
  | zero => simp [pure, Except.pure]
  | succ m ih =>
    rw [List.range_succ, List.foldlM_append, ih]
    by_cases h1 : m * n ≤ h.length
    · rw [if_pos h1]
      have hrow := vertexRow_fold d x y h n m n (le_refl n)
        ((List.range (m * n)).map (vertexAt d x y h n)) h1
      have e : (m + 1) * n = m * n + n := by ring
      simp only [bind, Except.bind, List.foldlM_cons, List.foldlM_nil, vertexRow, ← hn, hrow, e]
      by_cases h2 : m * n + n ≤ h.length
      · simp only [if_pos h2, pure, Except.pure]
        rw [List.range_add, List.map_append, List.map_map]
        rfl
      · simp only [if_neg h2]
    · have e : ¬ (m + 1) * n ≤ h.length := by
        have : (m + 1) * n = m * n + n := by ring
        omega
      rw [if_neg h1, if_neg e]
      rfl

/-- The vertex loop returns the closed-form block when the heights suffice and
reads past the end of the heights otherwise. -/
theorem vertexLoop_eq (d x y : Int) (h : List ℚ) :
    vertexLoop d x y h
      = if (d + 1).toNat * (d + 1).toNat ≤ h.length then
          Except.ok ((d + 1).toNat * (d + 1).toNat, chunkVertices d x y h)
        else Except.error Fault.heightsOutOfBounds :=
  vertexLoop_fold d x y h (d + 1).toNat rfl (d + 1).toNat

theorem chunkVertices_length (d x y : Int) (h : List ℚ) :
    (chunkVertices d x y h).length = (d + 1).toNat * (d + 1).toNat := by
  simp [chunkVertices]

theorem chunkVertices_getElem? (d x y : Int) (h : List ℚ) (c : Nat)
    (hc : c < (d + 1).toNat * (d + 1).toNat) :
    (chunkVertices d x y h)[c]? = some (vertexAt d x y h (d + 1).toNat c) := by
  simp [chunkVertices, List.getElem?_range hc]

/-! ## The index loop -/

theorem elementAt_cell (d v : Int) (m i j k : Nat) (hj : j < m) (hk : k < 6) :
    elementAt d v m (6 * (i * m + j) + k) = cellElement d v i j k := by
  have e0 : (6 * (i * m + j) + k) / 6 = i * m + j := by omega
  have e3 : (6 * (i * m + j) + k) % 6 = k := by omega
  have e1 : (i * m + j) / m = i := by
    rw [Nat.add_comm, Nat.add_mul_div_right _ _ (by omega), Nat.div_eq_of_lt hj]; simp
  have e2 : (i * m + j) % m = j := by
    rw [Nat.add_comm, Nat.add_mul_mod_self_right, Nat.mod_eq_of_lt hj]
  unfold elementAt
  rw [e0, e3, e1, e2]

theorem elementBody_eq (d v : Int) (m i j : Nat) (hj : j < m) (els : List Nat) :
    elementBody d v i els j
      = els ++ (List.range 6).map (fun k => elementAt d v m (6 * (i * m + j) + k)) := by
  have r6 : List.range 6 = [0, 1, 2, 3, 4, 5] := by decide
  rw [r6]
  simp only [List.map_cons, List.map_nil]
  rw [elementAt_cell d v m i j 0 hj (by omega), elementAt_cell d v m i j 1 hj (by omega),
    elementAt_cell d v m i j 2 hj (by omega), elementAt_cell d v m i j 3 hj (by omega),
    elementAt_cell d v m i j 4 hj (by omega), elementAt_cell d v m i j 5 hj (by omega)]
  rfl

theorem elementRow_fold (d v : Int) (m i : Nat) (m' : Nat) (hm : m' ≤ m) (els : List Nat) :
    (List.range m').foldl (elementBody d v i) els
      = els ++ (List.range (6 * m')).map (fun p => elementAt d v m (6 * (i * m) + p)) := by
  induction m' with
  | zero => simp
  | succ m' ih =>
    rw [List.range_succ, List.foldl_append, ih (by omega)]
    simp only [List.foldl_cons, List.foldl_nil]
    rw [elementBody_eq d v m i m' (by omega)]
    have e : 6 * (m' + 1) = 6 * m' + 6 := by ring
    rw [e, List.range_add, List.map_append, List.map_map, List.append_assoc]
    congr 2
    apply List.map_congr_left
    intro k _
    simp only [Function.comp]
    congr 1
    ring

theorem elementLoop_fold (d v : Int) (m : Nat) (m' : Nat) :
    (List.range m').foldl (fun els i => (List.range m).foldl (elementBody d v i) els) []
      = (List.range (6 * (m' * m))).map (elementAt d v m) := by
  induction m' with
  | zero => simp
  | succ m' ih =>
    rw [List.range_succ, List.foldl_append, ih]
    simp only [List.foldl_cons, List.foldl_nil]
    rw [elementRow_fold d v m m' m (le_refl m)]
    have e : 6 * ((m' + 1) * m) = 6 * (m' * m) + 6 * m := by ring
    rw [e, List.range_add, List.map_append, List.map_map]
    rfl

/-- The index loop returns the closed-form block. -/
theorem elementLoop_eq (d v : Int) :
    elementLoop d v = (List.range (6 * (d.toNat * d.toNat))).map (elementAt d v d.toNat) :=
  elementLoop_fold d v d.toNat d.toNat

theorem elementLoop_length (d v : Int) :
    (elementLoop d v).length = 6 * (d.toNat * d.toNat) := by
  simp [elementLoop_eq]

theorem elementLoop_getElem? (d v : Int) (p : Nat) (hp : p < 6 * (d.toNat * d.toNat)) :
    (elementLoop d v)[p]? = some (elementAt d v d.toNat p) := by
  simp [elementLoop_eq, List.getElem?_range hp]

/-! ## Buffer writes -/

theorem writeAt_length {α : Type} (store : List (Option α)) (pos count : Nat) (data : List α) :
    (writeAt store pos count data).length = store.length := by
  simp [writeAt]

theorem writeAt_getElem? {α : Type} (store : List (Option α)) (pos count : Nat)
    (data : List α) (k : Nat) :
    (writeAt store pos count data)[k]?
      = if pos ≤ k ∧ k < pos + count ∧ k < store.length then some (data[k - pos]?)
        else store[k]? := by
  unfold writeAt
  rw [List.getElem?_mapIdx]
  by_cases hk : k < store.length
  · rw [List.getElem?_eq_getElem hk]
    by_cases hw : pos ≤ k ∧ k < pos + count
    · simp [hw, hk]
    · have : ¬ (pos ≤ k ∧ k < pos + count ∧ k < store.length) := fun h => hw ⟨h.1, h.2.1⟩
      simp [hw, this]
  · have : ¬ (pos ≤ k ∧ k < pos + count ∧ k < store.length) := fun h => hk h.2.2
    simp [List.getElem?_eq_none (Nat.le_of_not_lt hk), this]

theorem bufferSubData_accept {α : Type} (e : Int) (he : 0 < e) (store : List (Option α))
    (pos n : Nat) (data : List α) (hfit : pos + n ≤ store.length) :
    bufferSubData e store (e * pos) (e * n) data = (writeAt store pos n data, false) := by
  unfold bufferSubData
  have h1 : ¬ (e * (pos : Int) < 0) := not_lt.mpr (mul_nonneg (le_of_lt he) (by omega))
  have h2 : ¬ (e * (n : Int) < 0) := not_lt.mpr (mul_nonneg (le_of_lt he) (by omega))
  have h3 : ¬ (e * (store.length : Int) < e * pos + e * n) := by
    rw [← mul_add]
    exact not_lt.mpr (mul_le_mul_of_nonneg_left (by omega) (le_of_lt he))
  rw [if_neg (by tauto)]
  rw [Int.mul_ediv_cancel_left _ (ne_of_gt he), Int.mul_ediv_cancel_left _ (ne_of_gt he)]
  simp

theorem bufferSubData_reject {α : Type} (e : Int) (he : 0 < e) (store : List (Option α))
    (m chunks off : Int) (hm : 0 < m) (hlen : (store.length : Int) = m * chunks)
    (hoff : off < 0 ∨ chunks ≤ off) (data : List α) :
    bufferSubData e store (e * m * off) (e * m) data = (store, true) := by
  unfold bufferSubData
  have hem : 0 < e * m := mul_pos he hm
  rw [if_pos]
  rcases hoff with h | h
  · left
    exact mul_neg_of_pos_of_neg hem h
  · right; right
    rw [hlen]
    have : e * m * chunks ≤ e * m * off := mul_le_mul_of_nonneg_left h (le_of_lt hem)
    nlinarith

/-! ## updateChunk on a configured state -/

theorem verticesPerChunk_cast (d : Int) (hd : 0 ≤ d) :
    (((d + 1).toNat * (d + 1).toNat : Nat) : Int) = sq (d + 1) := by
  have h : ((d + 1).toNat : Int) = d + 1 := Int.toNat_of_nonneg (by omega)
  rw [Nat.cast_mul, h, sq]

theorem elementsPerChunk_cast (d : Int) (hd : 0 ≤ d) :
    ((6 * (d.toNat * d.toNat) : Nat) : Int) = 2 * 3 * sq d := by
  have h : (d.toNat : Int) = d := Int.toNat_of_nonneg hd
  rw [Nat.cast_mul, Nat.cast_mul, h, sq]
  norm_num

/-- With too few heights the vertex loop reads past their end: the embedding
stops at that read. -/
theorem updateChunk_short (t : TerrainRenderer) (cx cy x y : Int) (h : List ℚ)
    (hlen : h.length < (t.m_detail + 1).toNat * (t.m_detail + 1).toNat) :
    updateChunk t cx cy x y h = Except.error Fault.heightsOutOfBounds := by
  unfold updateChunk
  rw [vertexLoop_eq, if_neg (by omega)]

/-- With enough heights and `detail ≥ 0` both assertions pass and the call
reaches its two `glBufferSubData` calls. -/
theorem updateChunk_eq (t : TerrainRenderer) (r d : Int) (hd : 0 ≤ d) (ht : Configured t r d)
    (cx cy x y : Int) (h : List ℚ) (hlen : (d + 1).toNat * (d + 1).toNat ≤ h.length) :
    updateChunk t cx cy x y h = Except.ok
      { t with
        vertexBuffer := (bufferSubData sizeofVertex t.vertexBuffer
          (sizeofVertex * t.m_verticesPerChunk * chunkOffset r cx cy)
          (sizeofVertex * t.m_verticesPerChunk) (chunkVertices d x y h)).1
        elementBuffer := (bufferSubData sizeofGLuint t.elementBuffer
          (sizeofGLuint * t.m_elementsPerChunk * chunkOffset r cx cy)
          (sizeofGLuint * t.m_elementsPerChunk)
          (elementLoop d (t.m_verticesPerChunk * chunkOffset r cx cy))).1
        glError := t.glError ||
          (bufferSubData sizeofVertex t.vertexBuffer
            (sizeofVertex * t.m_verticesPerChunk * chunkOffset r cx cy)
            (sizeofVertex * t.m_verticesPerChunk) (chunkVertices d x y h)).2 ||
          (bufferSubData sizeofGLuint t.elementBuffer
            (sizeofGLuint * t.m_elementsPerChunk * chunkOffset r cx cy)
            (sizeofGLuint * t.m_elementsPerChunk)
            (elementLoop d (t.m_verticesPerChunk * chunkOffset r cx cy))).2
        glCalls := t.glCalls ++
          [GLCall.glBufferSubData BufferTarget.GL_ARRAY_BUFFER
              (sizeofVertex * t.m_verticesPerChunk * chunkOffset r cx cy)
              (sizeofVertex * t.m_verticesPerChunk),
           GLCall.glBufferSubData BufferTarget.GL_ELEMENT_ARRAY_BUFFER
              (sizeofGLuint * t.m_elementsPerChunk * chunkOffset r cx cy)
              (sizeofGLuint * t.m_elementsPerChunk)] } := by
  obtain ⟨hr, hdt, _, hE, hV, _, _⟩ := ht
  unfold updateChunk
  rw [vertexLoop_eq, hdt, if_pos hlen]
  have h1 : ∀ v, ((elementLoop d v).length : Int) = t.m_elementsPerChunk := by
    intro v
    rw [elementLoop_length, hE, elementsPerChunk_cast d hd]
  have h2 : ((chunkVertices d x y h).length : Int) = t.m_verticesPerChunk := by
    rw [chunkVertices_length, hV, verticesPerChunk_cast d hd]
  simp only [h1, h2, ne_eq, not_true_eq_false, if_false, hr]

theorem reset_configured (t : TerrainRenderer) (r d : Int) : Configured (reset t r d) r d := by
  have hV : 0 ≤ sq (d + 1) * sq (2 * r - 1) :=
    mul_nonneg (mul_self_nonneg _) (mul_self_nonneg _)
  have hE : 0 ≤ 2 * 3 * sq d * sq (2 * r - 1) :=
    mul_nonneg (mul_nonneg (by norm_num) (mul_self_nonneg _)) (mul_self_nonneg _)
  refine ⟨rfl, rfl, rfl, rfl, rfl, ?_, ?_⟩
  · simp only [reset, bufferData, sizeofVertex]
    rw [if_neg (by rw [mul_assoc]; omega), mul_assoc,
      Int.mul_ediv_cancel_left _ (by norm_num : (20 : Int) ≠ 0)]
    simp only [List.length_replicate]
    exact Int.toNat_of_nonneg hV
  · simp only [reset, bufferData, sizeofGLuint]
    rw [if_neg (by rw [mul_assoc]; omega), mul_assoc,
      Int.mul_ediv_cancel_left _ (by norm_num : (4 : Int) ≠ 0)]
    simp only [List.length_replicate]
    exact Int.toNat_of_nonneg hE

/-- The window of a slot lies inside a store that holds one window per slot. -/
theorem window_fits (len V s : Nat) (m chunks : Int) (hV : (V : Int) = m)
    (hlen : (len : Int) = m * chunks) (hs : (s : Int) < chunks) : V * s + V ≤ len := by
  have h0 : (0 : Int) ≤ m := by rw [← hV]; omega
  have h1 : m * ((s : Int) + 1) ≤ m * chunks := mul_le_mul_of_nonneg_left (by omega) h0
  zify
  rw [hV, hlen]
  linarith

/-- When the computed offset is one of the slots, both writes are accepted and
replace exactly the two windows of that slot. -/
theorem updateChunk_slot (t : TerrainRenderer) (r d : Int) (hd : 0 ≤ d) (ht : Configured t r d)
    (cx cy x y : Int) (h : List ℚ) (hlen : (d + 1).toNat * (d + 1).toNat ≤ h.length)
    (s : Nat) (hs : chunkOffset r cx cy = s) (hlt : (s : Int) < t.m_chunks) :
    updateChunk t cx cy x y h = Except.ok
      { t with
        vertexBuffer := writeAt t.vertexBuffer ((d + 1).toNat * (d + 1).toNat * s)
          ((d + 1).toNat * (d + 1).toNat) (chunkVertices d x y h)
        elementBuffer := writeAt t.elementBuffer (6 * (d.toNat * d.toNat) * s)
          (6 * (d.toNat * d.toNat)) (elementLoop d (t.m_verticesPerChunk * s))
        glError := t.glError
        glCalls := t.glCalls ++
          [GLCall.glBufferSubData BufferTarget.GL_ARRAY_BUFFER
              (sizeofVertex * t.m_verticesPerChunk * s) (sizeofVertex * t.m_verticesPerChunk),
           GLCall.glBufferSubData BufferTarget.GL_ELEMENT_ARRAY_BUFFER
              (sizeofGLuint * t.m_elementsPerChunk * s)
              (sizeofGLuint * t.m_elementsPerChunk)] } := by
  rw [updateChunk_eq t r d hd ht cx cy x y h hlen, hs]
  obtain ⟨_, _, _, hE, hV, hvl, hel⟩ := ht
  have cV := verticesPerChunk_cast d hd
  have cE := elementsPerChunk_cast d hd
  rw [← hV] at cV
  rw [← hE] at cE
  have fitV := window_fits _ _ s _ _ cV hvl hlt
  have fitE := window_fits _ _ s _ _ cE hel hlt
  have eV1 : sizeofVertex * t.m_verticesPerChunk * (s : Int)
      = sizeofVertex * (((d + 1).toNat * (d + 1).toNat * s : Nat) : Int) := by
    rw [Nat.cast_mul, cV, mul_assoc]
  have eV2 : sizeofVertex * t.m_verticesPerChunk
      = sizeofVertex * (((d + 1).toNat * (d + 1).toNat : Nat) : Int) := by rw [cV]
  have eE1 : sizeofGLuint * t.m_elementsPerChunk * (s : Int)
      = sizeofGLuint * ((6 * (d.toNat * d.toNat) * s : Nat) : Int) := by
    rw [Nat.cast_mul, cE, mul_assoc]
  have eE2 : sizeofGLuint * t.m_elementsPerChunk
      = sizeofGLuint * ((6 * (d.toNat * d.toNat) : Nat) : Int) := by rw [cE]
  have wV := bufferSubData_accept sizeofVertex (by decide) t.vertexBuffer _ _
    (chunkVertices d x y h) fitV
  have wE := bufferSubData_accept sizeofGLuint (by decide) t.elementBuffer _ _
    (elementLoop d (t.m_verticesPerChunk * s)) fitE
  rw [← eV1, ← eV2] at wV
  rw [← eE1, ← eE2] at wE
  rw [wV, wE]
  simp

/-- When the computed offset is not one of the slots (and `detail ≥ 1`), GL
rejects both writes: the stores stay as they are and the error flag is set. -/
theorem updateChunk_outside (t : TerrainRenderer) (r d : Int) (hd : 1 ≤ d)
    (ht : Configured t r d) (cx cy x y : Int) (h : List ℚ)
    (hlen : (d + 1).toNat * (d + 1).toNat ≤ h.length)
    (hout : chunkOffset r cx cy < 0 ∨ t.m_chunks ≤ chunkOffset r cx cy) :
    updateChunk t cx cy x y h = Except.ok
      { t with
        glError := true
        glCalls := t.glCalls ++
          [GLCall.glBufferSubData BufferTarget.GL_ARRAY_BUFFER
              (sizeofVertex * t.m_verticesPerChunk * chunkOffset r cx cy)
              (sizeofVertex * t.m_verticesPerChunk),
           GLCall.glBufferSubData BufferTarget.GL_ELEMENT_ARRAY_BUFFER
              (sizeofGLuint * t.m_elementsPerChunk * chunkOffset r cx cy)
              (sizeofGLuint * t.m_elementsPerChunk)] } := by
  rw [updateChunk_eq t r d (by omega) ht cx cy x y h hlen]
  obtain ⟨_, _, _, hE, hV, hvl, hel⟩ := ht
  have pV : 0 < t.m_verticesPerChunk := by
    rw [hV, sq]; exact mul_pos (by omega) (by omega)
  have pE : 0 < t.m_elementsPerChunk := by
    rw [hE, sq]; exact mul_pos (by norm_num) (mul_pos (by omega) (by omega))
  rw [bufferSubData_reject sizeofVertex (by decide) t.vertexBuffer _ _ _ pV hvl hout,
    bufferSubData_reject sizeofGLuint (by decide) t.elementBuffer _ _ _ pE hel hout]
  simp

/-- A call of `updateChunk` that returns keeps the configuration. -/
theorem updateChunk_configured (t t' : TerrainRenderer) (r d : Int) (ht : Configured t r d)
    (cx cy x y : Int) (h : List ℚ) (hok : updateChunk t cx cy x y h = Except.ok t') :
    Configured t' r d := by
  unfold updateChunk at hok
  split at hok
  · exact absurd hok (by simp)
  · dsimp only at hok
    split at hok
    · exact absurd hok (by simp)
    · split at hok
      · exact absurd hok (by simp)
      · injection hok with hok
        subst hok
        obtain ⟨h1, h2, h3, h4, h5, h6, h7⟩ := ht
        refine ⟨h1, h2, h3, h4, h5, ?_, ?_⟩
        · simp only [bufferSubData]
          split
          · exact h6
          · simp only [writeAt_length]; exact h6
        · simp only [bufferSubData]
          split
          · exact h7
          · simp only [writeAt_length]; exact h7

/-! ## The slot mapping -/

theorem chunkOffset_range (r cx cy : Int) (hr : 1 ≤ r)
    (hx : -(r - 1) ≤ cx ∧ cx ≤ r - 1) (hy : -(r - 1) ≤ cy ∧ cy ≤ r - 1) :
    0 ≤ chunkOffset r cx cy ∧ chunkOffset r cx cy < sq (2 * r - 1) := by
  simp only [chunkOffset, sq]
  constructor
  · have : 0 ≤ (cx + r - 1) * (2 * r - 1) := mul_nonneg (by omega) (by omega)
    omega
  · nlinarith [hx.1, hx.2, hy.1, hy.2]

theorem chunkOffset_injective (r cx cy cx' cy' : Int) (hr : 1 ≤ r)
    (hy : -(r - 1) ≤ cy ∧ cy ≤ r - 1) (hy' : -(r - 1) ≤ cy' ∧ cy' ≤ r - 1)
    (he : chunkOffset r cx cy = chunkOffset r cx' cy') : cx = cx' ∧ cy = cy' := by
  simp only [chunkOffset] at he
  have hx : cx = cx' := by
    rcases lt_trichotomy cx cx' with hlt | heq | hgt
    · exfalso; nlinarith [hy.1, hy.2, hy'.1, hy'.2]
    · exact heq
    · exfalso; nlinarith [hy.1, hy.2, hy'.1, hy'.2]
  subst hx
  exact ⟨rfl, by omega⟩

theorem chunkOffset_surjective (r s : Int) (hr : 1 ≤ r) (h0 : 0 ≤ s) (h1 : s < (2 * r - 1) ^ 2) :
    ∃ cx cy, (-(r - 1) ≤ cx ∧ cx ≤ r - 1) ∧ (-(r - 1) ≤ cy ∧ cy ≤ r - 1) ∧
      chunkOffset r cx cy = s := by
  have hn : 0 < 2 * r - 1 := by omega
  have m1 := Int.emod_nonneg s (ne_of_gt hn)
  have m2 := Int.emod_lt_of_pos s hn
  have d1 : 0 ≤ s / (2 * r - 1) := Int.ediv_nonneg h0 (le_of_lt hn)
  have d2 : s / (2 * r - 1) < 2 * r - 1 := by
    apply Int.ediv_lt_of_lt_mul hn
    nlinarith [h1]
  refine ⟨s / (2 * r - 1) - (r - 1), s % (2 * r - 1) - (r - 1),
    ⟨by omega, by omega⟩, ⟨by omega, by omega⟩, ?_⟩
  simp only [chunkOffset]
  have := Int.ediv_add_emod s (2 * r - 1)
  have e1 : s / (2 * r - 1) - (r - 1) + r - 1 = s / (2 * r - 1) := by ring
  have e2 : s % (2 * r - 1) - (r - 1) + r - 1 = s % (2 * r - 1) := by ring
  rw [e1, e2]
  linarith

/-- An in-range chunk with exactly `verticesPerChunk` heights: the call returns,
with both windows of the chunk's slot replaced and nothing else changed. -/
theorem updateChunk_inRange (t : TerrainRenderer) (r d : Int) (hr : 1 ≤ r) (hd : 1 ≤ d)
    (ht : Configured t r d) (cx cy x y : Int) (h : List ℚ)
    (hx : -(r - 1) ≤ cx ∧ cx ≤ r - 1) (hy : -(r - 1) ≤ cy ∧ cy ≤ r - 1)
    (hlen : (h.length : Int) = t.m_verticesPerChunk) :
    ∃ (t' : TerrainRenderer) (s V E : Nat),
      chunkOffset r cx cy = s ∧ (s : Int) < t.m_chunks ∧
      V = (d + 1).toNat * (d + 1).toNat ∧ E = 6 * (d.toNat * d.toNat) ∧
      (V : Int) = t.m_verticesPerChunk ∧ (E : Int) = t.m_elementsPerChunk ∧
      h.length = V ∧
      V * s + V ≤ t.vertexBuffer.length ∧ E * s + E ≤ t.elementBuffer.length ∧
      updateChunk t cx cy x y h = Except.ok t' ∧
      t'.vertexBuffer = writeAt t.vertexBuffer (V * s) V (chunkVertices d x y h) ∧
      t'.elementBuffer
        = writeAt t.elementBuffer (E * s) E (elementLoop d (t.m_verticesPerChunk * s)) ∧
      t'.glError = t.glError ∧
      t'.glCalls = t.glCalls ++
        [GLCall.glBufferSubData BufferTarget.GL_ARRAY_BUFFER
            (sizeofVertex * t.m_verticesPerChunk * s) (sizeofVertex * t.m_verticesPerChunk),
         GLCall.glBufferSubData BufferTarget.GL_ELEMENT_ARRAY_BUFFER
            (sizeofGLuint * t.m_elementsPerChunk * s) (sizeofGLuint * t.m_elementsPerChunk)] := by
  obtain ⟨o1, o2⟩ := chunkOffset_range r cx cy hr hx hy
  obtain ⟨s, hs⟩ := Int.eq_ofNat_of_zero_le o1
  have hd0 : 0 ≤ d := by omega
  have cV := verticesPerChunk_cast d hd0
  have cE := elementsPerChunk_cast d hd0
  rw [← ht.2.2.2.2.1] at cV
  rw [← ht.2.2.2.1] at cE
  have hlt : (s : Int) < t.m_chunks := by rw [ht.2.2.1, ← hs]; exact o2
  have hl : h.length = (d + 1).toNat * (d + 1).toNat := by
    have : (h.length : Int) = (((d + 1).toNat * (d + 1).toNat : Nat) : Int) := by
      rw [hlen, cV]
    exact_mod_cast this
  refine ⟨_, s, _, _, hs, hlt, rfl, rfl, cV, cE, hl,
    window_fits _ _ s _ _ cV ht.2.2.2.2.2.1 hlt, window_fits _ _ s _ _ cE ht.2.2.2.2.2.2 hlt,
    updateChunk_slot t r d hd0 ht cx cy x y h (le_of_eq hl.symm) s hs hlt, rfl, rfl, rfl, rfl⟩

/-- What a written window holds: position `pos + j` holds entry `j` of the data. -/
theorem writeAt_window {α : Type} (store : List (Option α)) (pos count : Nat) (data : List α)
    (hfit : pos + count ≤ store.length) (j : Nat) (hj : j < count) :
    (writeAt store pos count data)[pos + j]? = some (data[j]?) := by
  rw [writeAt_getElem?, if_pos ⟨by omega, by omega, by omega⟩]
  simp

/-- What lies outside a written window is kept. -/
theorem writeAt_outside {α : Type} (store : List (Option α)) (pos count : Nat) (data : List α)
    (k : Nat) (hk : k < pos ∨ pos + count ≤ k) :
    (writeAt store pos count data)[k]? = store[k]? := by
  rw [writeAt_getElem?, if_neg]
  rintro ⟨h1, h2, _⟩
  omega

theorem toGLuint_natCast (n : Nat) : toGLuint (n : Int) = n := by
  simp [toGLuint]

theorem toGLuint_cast (x : Int) (hx : 0 ≤ x) : ((toGLuint x : Nat) : Int) = x := by
  simp [toGLuint, hx]

/-- The six indices that the index loop emits for sub-cell `(i, j)`. -/
theorem elementLoop_cell (d v : Int) (hv : 0 ≤ v) (i j q : Nat)
    (hi : (i : Int) < d) (hj : (j : Int) < d) (hq : (q : Int) = 6 * (i * d + j)) :
    ∃ e0 e1 e2 e3 e4 e5 : Nat,
      (elementLoop d v)[q]? = some e0 ∧ (elementLoop d v)[q + 1]? = some e1 ∧
      (elementLoop d v)[q + 2]? = some e2 ∧ (elementLoop d v)[q + 3]? = some e3 ∧
      (elementLoop d v)[q + 4]? = some e4 ∧ (elementLoop d v)[q + 5]? = some e5 ∧
      (e0 : Int) = v + (d + 1) * i + j ∧
      (e1 : Int) = v + (d + 1) * i + j + 1 ∧
      (e2 : Int) = v + (d + 1) * i + j + (d + 1) ∧
      (e3 : Int) = v + (d + 1) * i + j + (d + 1) + 1 ∧
      (e4 : Int) = v + (d + 1) * i + j + 1 ∧
      (e5 : Int) = v + (d + 1) * i + j + (d + 1) := by
  have hd : 0 ≤ d := by omega
  have hm : (d.toNat : Int) = d := Int.toNat_of_nonneg hd
  have hi' : i < d.toNat := by omega
  have hj' : j < d.toNat := by omega
  have hq' : q = 6 * (i * d.toNat + j) := by
    have : (q : Int) = ((6 * (i * d.toNat + j) : Nat) : Int) := by
      rw [hq]; push_cast; rw [hm]
    exact_mod_cast this
  have hbound : 6 * (i * d.toNat + j) + 5 < 6 * (d.toNat * d.toNat) := by
    have : (i + 1) * d.toNat ≤ d.toNat * d.toNat := Nat.mul_le_mul_right _ hi'
    have e : (i + 1) * d.toNat = i * d.toNat + d.toNat := by ring
    omega
  have get : ∀ k, k < 6 →
      (elementLoop d v)[q + k]? = some (cellElement d v i j k) := by
    intro k hk
    rw [hq', elementLoop_getElem? d v _ (by omega), elementAt_cell d v _ i j k hj' hk]
  have p0 : 0 ≤ (d + 1) * (i : Int) := mul_nonneg (by omega) (by omega)
  have p1 : 0 ≤ (d + 1) * ((i : Int) + 1) := mul_nonneg (by omega) (by omega)
  refine ⟨_, _, _, _, _, _, get 0 (by omega), get 1 (by omega), get 2 (by omega),
    get 3 (by omega), get 4 (by omega), get 5 (by omega), ?_, ?_, ?_, ?_, ?_, ?_⟩
  · simp only [cellElement]; rw [toGLuint_cast _ (by omega)]
  · simp only [cellElement]; rw [toGLuint_cast _ (by omega)]
  · simp only [cellElement]; rw [toGLuint_cast _ (by omega)]; ring
  · simp only [cellElement]; rw [toGLuint_cast _ (by omega)]; ring
  · simp only [cellElement]; rw [toGLuint_cast _ (by omega)]
  · simp only [cellElement]; rw [toGLuint_cast _ (by omega)]; ring

/-- The vertex block depends on the heights only through its first
`(detail+1)^2` entries. -/
theorem chunkVertices_take (d x y : Int) (h : List ℚ) :
    chunkVertices d x y (h.take ((d + 1).toNat * (d + 1).toNat)) = chunkVertices d x y h := by
  unfold chunkVertices
  apply List.map_congr_left
  intro c hc
  have hc' : c < (d + 1).toNat * (d + 1).toNat := List.mem_range.mp hc
  simp [vertexAt, List.getD_eq_getElem?_getD, List.getElem?_take, hc']

/-- A sequence of `updateChunk` calls that returns keeps the configuration. -/
theorem updateChunks_configured (us : List ChunkUpdate) (t t' : TerrainRenderer) (r d : Int)
    (ht : Configured t r d) (hok : updateChunks t us = Except.ok t') : Configured t' r d := by
  induction us generalizing t with
  | nil =>
    simp only [updateChunks] at hok
    injection hok with hok
    rw [← hok]; exact ht
  | cons u us ih =>
    simp only [updateChunks] at hok
    split at hok
    · exact absurd hok (by simp)
    · rename_i t1 h1
      exact ih t1 (updateChunk_configured t t1 r d ht _ _ _ _ _ h1) hok

/-- The vertex that an in-range call leaves at local position `i*(detail+1) + j`
of the chunk's slot. -/
theorem updateChunk_gridVertex (t : TerrainRenderer) (r d : Int) (hr : 1 ≤ r) (hd : 1 ≤ d)
    (ht : Configured t r d) (cx cy x y : Int) (h : List ℚ)
    (hx : -(r - 1) ≤ cx ∧ cx ≤ r - 1) (hy : -(r - 1) ≤ cy ∧ cy ≤ r - 1)
    (hlen : (h.length : Int) = t.m_verticesPerChunk) :
    ∃ t', updateChunk t cx cy x y h = Except.ok t' ∧
      ∀ p i j c : Nat, (p : Int) = t.m_verticesPerChunk * chunkOffset r cx cy →
        (i : Int) ≤ d → (j : Int) ≤ d → (c : Int) = i * (d + 1) + j →
        h[c]? = some (h.getD c 0) ∧
        t'.vertexBuffer[p + c]? = some (some (gridVertex d x y i j (h.getD c 0))) := by
  obtain ⟨t', s, V, E, hs, _, hV, hE, cV, cE, hl, fV, fE, hok, hvb, heb, herr, hcalls⟩ :=
    updateChunk_inRange t r d hr hd ht cx cy x y h hx hy hlen
  have hn : ((d + 1).toNat : Int) = d + 1 := Int.toNat_of_nonneg (by omega)
  refine ⟨t', hok, ?_⟩
  intro p i j c hp hi hj hc
  have hp' : p = V * s := by
    have : (p : Int) = ((V * s : Nat) : Int) := by rw [hp, hs, Nat.cast_mul, cV]
    exact_mod_cast this
  have hi' : i < (d + 1).toNat := by omega
  have hj' : j < (d + 1).toNat := by omega
  have hc' : c = i * (d + 1).toNat + j := by
    have : (c : Int) = ((i * (d + 1).toNat + j : Nat) : Int) := by
      rw [hc]; push_cast; rw [hn]
    exact_mod_cast this
  have hcV : c < V := by
    rw [hc', hV]
    calc i * (d + 1).toNat + j < i * (d + 1).toNat + (d + 1).toNat := by omega
      _ = (i + 1) * (d + 1).toNat := by ring
      _ ≤ (d + 1).toNat * (d + 1).toNat := Nat.mul_le_mul_right _ hi'
  constructor
  · rw [List.getElem?_eq_getElem (by omega), List.getD_eq_getElem?_getD,
      List.getElem?_eq_getElem (by omega)]
    rfl
  · rw [hvb, hp', writeAt_window _ _ _ _ fV c hcV,
      chunkVertices_getElem? _ _ _ _ c (by rw [← hV]; exact hcV)]
    rw [hc', vertexAt_grid _ _ _ _ _ i j hj']

/-- Every position below `m * chunkCount` lies in the window of exactly one
in-range chunk, the windows being `m` wide. -/
theorem window_tiling (r m : Int) (hr : 1 ≤ r) (hm : 0 < m) (k : Nat)
    (hk : (k : Int) < m * sq (2 * r - 1)) :
    ∃ cx cy, (-(r - 1) ≤ cx ∧ cx ≤ r - 1) ∧ (-(r - 1) ≤ cy ∧ cy ≤ r - 1) ∧
      chunkOffset r cx cy * m ≤ k ∧ (k : Int) < (chunkOffset r cx cy + 1) * m ∧
      ∀ cx' cy', (-(r - 1) ≤ cx' ∧ cx' ≤ r - 1) → (-(r - 1) ≤ cy' ∧ cy' ≤ r - 1) →
        chunkOffset r cx' cy' * m ≤ k → (k : Int) < (chunkOffset r cx' cy' + 1) * m →
        cx' = cx ∧ cy' = cy := by
  have h0 : 0 ≤ (k : Int) / m := Int.ediv_nonneg (by omega) (le_of_lt hm)
  have h1 : (k : Int) / m < sq (2 * r - 1) :=
    Int.ediv_lt_of_lt_mul hm (by rw [mul_comm]; exact hk)
  have h2 : (k : Int) / m * m ≤ k := Int.ediv_mul_le _ (ne_of_gt hm)
  have h3 : (k : Int) < ((k : Int) / m + 1) * m := Int.lt_ediv_add_one_mul_self _ hm
  obtain ⟨cx, cy, hx, hy, he⟩ := chunkOffset_surjective r ((k : Int) / m) hr h0
    (by rw [sq, ← pow_two] at h1; exact h1)
  refine ⟨cx, cy, hx, hy, by rw [he]; exact h2, by rw [he]; exact h3, ?_⟩
  intro cx' cy' _ hy' l1 l2
  have heq : chunkOffset r cx' cy' = (k : Int) / m := by
    rcases lt_trichotomy (chunkOffset r cx' cy') ((k : Int) / m) with hlt | heq | hgt
    · exfalso
      have : (chunkOffset r cx' cy' + 1) * m ≤ (k : Int) / m * m :=
        mul_le_mul_of_nonneg_right (by omega) (le_of_lt hm)
      linarith
    · exact heq
    · exfalso
      have : ((k : Int) / m + 1) * m ≤ chunkOffset r cx' cy' * m :=
        mul_le_mul_of_nonneg_right (by omega) (le_of_lt hm)
      linarith
  exact chunkOffset_injective r cx' cy' cx cy hr hy' hy (heq.trans he.symm)

/-- Every index of a sub-cell lies in the vertex window that starts at the
vertex offset. -/
theorem cellElement_bounds (d v : Int) (hv : 0 ≤ v) (i j k : Nat)
    (hi : (i : Int) < d) (hj : (j : Int) < d) :
    v ≤ (cellElement d v i j k : Int) ∧
    (cellElement d v i j k : Int) < v + (d + 1) * (d + 1) := by
  have i0 : (0 : Int) ≤ i := by omega
  have j0 : (0 : Int) ≤ j := by omega
  have p0 : 0 ≤ (d + 1) * (i : Int) := mul_nonneg (by omega) i0
  have p1 : (d + 1) * ((i : Int) + 1) = (d + 1) * i + (d + 1) := by ring
  have p2 : (d + 1) * ((i : Int) + 1) ≤ (d + 1) * d :=
    mul_le_mul_of_nonneg_left (by omega) (by omega)
  have p3 : (d + 1) * (d + 1) = (d + 1) * d + (d + 1) := by ring
  unfold cellElement
  split
  · rw [toGLuint_cast _ (by linarith)]; constructor <;> linarith
  · rw [toGLuint_cast _ (by linarith)]; constructor <;> linarith
  · rw [toGLuint_cast _ (by linarith)]; constructor <;> linarith
  · rw [toGLuint_cast _ (by linarith)]; constructor <;> linarith
  · rw [toGLuint_cast _ (by linarith)]; constructor <;> linarith
  · rw [toGLuint_cast _ (by linarith)]; constructor <;> linarith

/-- Every emitted index is one of the six indices of some sub-cell. -/
theorem elementLoop_mem (d v : Int) (e : Nat) (he : e ∈ elementLoop d v) :
    ∃ i j k : Nat, i < d.toNat ∧ j < d.toNat ∧ e = cellElement d v i j k := by
  rw [elementLoop_eq, List.mem_map] at he
  obtain ⟨p, hp, rfl⟩ := he
  have hp' : p < 6 * (d.toNat * d.toNat) := List.mem_range.mp hp
  have h6 : p / 6 < d.toNat * d.toNat := by omega
  have hm : 0 < d.toNat := by
    rcases Nat.eq_zero_or_pos d.toNat with h0 | h0
    · rw [h0] at h6; omega
    · exact h0
  exact ⟨p / 6 / d.toNat, p / 6 % d.toNat, p % 6, (Nat.div_lt_iff_lt_mul hm).mpr h6,
    Nat.mod_lt _ hm, rfl⟩

/-- Every emitted index lies in the vertex window that starts at the vertex
offset. -/
theorem elementLoop_bounds (d v : Int) (hv : 0 ≤ v) (e : Nat) (he : e ∈ elementLoop d v) :
    v ≤ (e : Int) ∧ (e : Int) < v + (d + 1) * (d + 1) := by
  obtain ⟨i, j, k, hi, hj, rfl⟩ := elementLoop_mem d v e he
  exact cellElement_bounds d v hv i j k (by omega) (by omega)

/-- Every position of the vertex window that starts at the vertex offset is
among the emitted indices. -/
theorem elementLoop_covers (d v : Int) (hd : 1 ≤ d) (hv : 0 ≤ v) (k : Nat)
    (h1 : v ≤ (k : Int)) (h2 : (k : Int) < v + (d + 1) * (d + 1)) :
    k ∈ elementLoop d v := by
  have hm : (d.toNat : Int) = d := Int.toNat_of_nonneg (by omega)
  have cell : ∀ i j : Nat, (i : Int) < d → (j : Int) < d →
      ∃ e0 e1 e2 e3 : Nat, e0 ∈ elementLoop d v ∧ e1 ∈ elementLoop d v ∧
        e2 ∈ elementLoop d v ∧ e3 ∈ elementLoop d v ∧
        (e0 : Int) = v + (d + 1) * i + j ∧ (e1 : Int) = v + (d + 1) * i + j + 1 ∧
        (e2 : Int) = v + (d + 1) * i + j + (d + 1) ∧
        (e3 : Int) = v + (d + 1) * i + j + (d + 1) + 1 := by
    intro i j hi hj
    obtain ⟨e0, e1, e2, e3, e4, e5, g0, g1, g2, g3, _, _, c0, c1, c2, c3, _, _⟩ :=
      elementLoop_cell d v hv i j (6 * (i * d.toNat + j)) hi hj (by push_cast; rw [hm])
    exact ⟨e0, e1, e2, e3, List.getElem?_mem g0, List.getElem?_mem g1, List.getElem?_mem g2,
      List.getElem?_mem g3, c0, c1, c2, c3⟩
  have hn : 0 < d + 1 := by omega
  have a0 : 0 ≤ ((k : Int) - v) / (d + 1) := Int.ediv_nonneg (by omega) (le_of_lt hn)
  have a1 : ((k : Int) - v) / (d + 1) < d + 1 :=
    Int.ediv_lt_of_lt_mul hn (by linarith)
  have b0 := Int.emod_nonneg ((k : Int) - v) (ne_of_gt hn)
  have b1 := Int.emod_lt_of_pos ((k : Int) - v) hn
  have hdiv := Int.ediv_add_emod ((k : Int) - v) (d + 1)
  obtain ⟨a, ha⟩ := Int.eq_ofNat_of_zero_le a0
  obtain ⟨b, hb⟩ := Int.eq_ofNat_of_zero_le b0
  rw [ha] at a1 hdiv
  rw [hb] at b1 hdiv
  have hk : (k : Int) = v + (d + 1) * a + b := by linarith
  have fin : ∀ e : Nat, e ∈ elementLoop d v → (e : Int) = (k : Int) → k ∈ elementLoop d v := by
    intro e he hek
    have : e = k := by exact_mod_cast hek
    rw [← this]; exact he
  by_cases hal : (a : Int) < d
  · by_cases hbl : (b : Int) < d
    · obtain ⟨e0, _, _, _, m0, _, _, _, c0, _, _, _⟩ := cell a b hal hbl
      exact fin e0 m0 (by rw [c0, hk])
    · have hbd : (b : Int) = d := by omega
      obtain ⟨_, e1, _, _, _, m1, _, _, _, c1, _, _⟩ :=
        cell a (d.toNat - 1) hal (by omega)
      refine fin e1 m1 ?_
      have : ((d.toNat - 1 : Nat) : Int) = d - 1 := by omega
      rw [c1, hk, this, hbd]; ring
  · have had : (a : Int) = d := by omega
    by_cases hbl : (b : Int) < d
    · obtain ⟨_, _, e2, _, _, _, m2, _, _, _, c2, _⟩ :=
        cell (d.toNat - 1) b (by omega) hbl
      refine fin e2 m2 ?_
      have : ((d.toNat - 1 : Nat) : Int) = d - 1 := by omega
      rw [c2, hk, this, had]; ring
    · have hbd : (b : Int) = d := by omega
      obtain ⟨_, _, _, e3, _, _, _, m3, _, _, _, c3⟩ :=
        cell (d.toNat - 1) (d.toNat - 1) (by omega) (by omega)
      refine fin e3 m3 ?_
      have : ((d.toNat - 1 : Nat) : Int) = d - 1 := by omega
      rw [c3, hk, this, had, hbd]; ring

/-- A leading part of the closed-form vertex block. -/
theorem chunkVertices_take_eq (d x y : Int) (h : List ℚ) (c : Nat)
    (hc : c ≤ (d + 1).toNat * (d + 1).toNat) :
    (chunkVertices d x y h).take c
      = (List.range c).map (vertexAt d x y h (d + 1).toNat) := by
  unfold chunkVertices
  rw [← List.map_take, List.take_range, Nat.min_eq_left hc]

/-- The loop state in which the iteration `(i, j)` of the vertex loop starts:
the counter is `i*(detail+1) + j` and the vertices pushed so far are the first
`i*(detail+1) + j` of the block. -/
theorem vertexLoop_prefix (d x y : Int) (h : List ℚ) (i j : Nat)
    (hl : (d + 1).toNat * (d + 1).toNat ≤ h.length)
    (hi : i < (d + 1).toNat) (hj : j < (d + 1).toNat) :
    ((List.range i).foldlM (vertexRow d x y h) (0, [])).bind
        (fun st => (List.range j).foldlM (vertexBody d x y h i) st)
      = Except.ok (i * (d + 1).toNat + j,
          (chunkVertices d x y h).take (i * (d + 1).toNat + j)) := by
  have hrow : (i + 1) * (d + 1).toNat ≤ (d + 1).toNat * (d + 1).toNat :=
    Nat.mul_le_mul_right _ hi
  have e : (i + 1) * (d + 1).toNat = i * (d + 1).toNat + (d + 1).toNat := by ring
  rw [vertexLoop_fold d x y h (d + 1).toNat rfl i, if_pos (by omega)]
  simp only [Except.bind]
  rw [vertexRow_fold d x y h (d + 1).toNat i j (le_of_lt hj) _ (by omega), if_pos (by omega),
    chunkVertices_take_eq d x y h _ (by omega), List.range_add, List.map_append, List.map_map]
  rfl

/-- The heights of the closed-form vertex block are the heights read. -/
theorem chunkVertices_heights (d x y : Int) (h : List ℚ)
    (hl : h.length = (d + 1).toNat * (d + 1).toNat) :
    (chunkVertices d x y h).map (fun v => v.position.2.2) = h := by
  apply List.ext_getElem?
  intro c
  by_cases hc : c < h.length
  · rw [List.getElem?_map, chunkVertices_getElem? d x y h c (by omega),
      List.getElem?_eq_getElem hc]
    simp [vertexAt, gridVertex, List.getD_eq_getElem?_getD, List.getElem?_eq_getElem hc]
  · rw [List.getElem?_eq_none (by rw [List.length_map, chunkVertices_length]; omega),
      List.getElem?_eq_none (by omega)]

/-- C1: after `reset(radius, detail)` the stored derived sizes are
`m_chunks = (2*radius - 1)^2`, `m_verticesPerChunk = (detail + 1)^2` and
`m_elementsPerChunk = 6 * detail^2`, for every radius and detail (so for every
radius ≥ 1 and detail ≥ 1); radius 1 gives 1 chunk, radius 3 gives 25, detail 1
gives 4 vertices and 6 indices, and (radius 2, detail 2) gives 9, 9 and 24. -/
theorem reset_derived_sizes (t : TerrainRenderer) (radius detail : Int) :
    (reset t radius detail).m_chunks = (2 * radius - 1) ^ 2 ∧
    (reset t radius detail).m_verticesPerChunk = (detail + 1) ^ 2 ∧
    (reset t radius detail).m_elementsPerChunk = 6 * detail ^ 2 ∧
    (reset t 1 detail).m_chunks = 1 ∧
    (reset t 3 detail).m_chunks = 25 ∧
    (reset t radius 1).m_verticesPerChunk = 4 ∧
    (reset t radius 1).m_elementsPerChunk = 6 ∧
    (reset t 2 2).m_chunks = 9 ∧
    (reset t 2 2).m_verticesPerChunk = 9 ∧
    (reset t 2 2).m_elementsPerChunk = 24 := by
  refine ⟨?_, ?_, ?_, ?_, ?_, ?_, ?_, ?_, ?_, ?_⟩ <;> simp only [reset, sq] <;>
    first | decide | ring

/-- C2: for every radius ≥ 1 the offset computed by `updateChunk`,
`(cx + radius - 1) * (2*radius - 1) + (cy + radius - 1)`, is a bijection from
the coordinate square `[-(radius-1), radius-1]^2` onto the slot range
`[0, (2*radius-1)^2)`: it maps the square into the range, is injective on the
square, and reaches every slot of the range. -/
theorem chunkOffset_bijOn (radius : Int) (hr : 1 ≤ radius) :
    Set.BijOn (fun p : Int × Int => chunkOffset radius p.1 p.2)
      (Set.Icc (-(radius - 1)) (radius - 1) ×ˢ Set.Icc (-(radius - 1)) (radius - 1))
      (Set.Ico 0 ((2 * radius - 1) ^ 2)) := by
  refine ⟨?_, ?_, ?_⟩
  · rintro ⟨cx, cy⟩ ⟨hx, hy⟩
    have := chunkOffset_range radius cx cy hr hx hy
    simp only [Set.mem_Ico, pow_two]
    exact this
  · rintro ⟨cx, cy⟩ ⟨_, hy⟩ ⟨cx', cy'⟩ ⟨_, hy'⟩ he
    obtain ⟨e1, e2⟩ := chunkOffset_injective radius cx cy cx' cy' hr hy hy' he
    rw [e1, e2]
  · intro s hs
    obtain ⟨cx, cy, hx, hy, he⟩ := chunkOffset_surjective radius s hr hs.1 hs.2
    exact ⟨(cx, cy), ⟨hx, hy⟩, he⟩

/-- Witness of C2 at radius 2. -/
theorem chunkOffset_bijOn_witness :
    (1 : Int) ≤ 2 ∧
    Set.BijOn (fun p : Int × Int => chunkOffset 2 p.1 p.2)
      (Set.Icc (-(2 - 1)) (2 - 1) ×ˢ Set.Icc (-(2 - 1)) (2 - 1))
      (Set.Ico 0 ((2 * 2 - 1) ^ 2)) :=
  ⟨by decide, chunkOffset_bijOn 2 (by decide)⟩

/-- C3: on a state sized by `reset(radius, detail)`, for an in-range chunk
`(cx, cy)` with slot `s = chunkOffset radius cx cy` and heights of length
`verticesPerChunk`, `updateChunk` returns and leaves unchanged every
vertex-buffer element outside `[s*verticesPerChunk, (s+1)*verticesPerChunk)`
and every index-buffer element outside
`[s*indicesPerChunk, (s+1)*indicesPerChunk)`; so the contents of every other
slot `s' ≠ s` are the same before and after the call. -/
theorem updateChunk_frame (t : TerrainRenderer) (radius detail : Int)
    (hr : 1 ≤ radius) (hd : 1 ≤ detail) (ht : Configured t radius detail)
    (cx cy x y : Int) (h : List ℚ)
    (hx : -(radius - 1) ≤ cx ∧ cx ≤ radius - 1) (hy : -(radius - 1) ≤ cy ∧ cy ≤ radius - 1)
    (hlen : (h.length : Int) = t.m_verticesPerChunk) :
    ∃ t', updateChunk t cx cy x y h = Except.ok t' ∧
      (∀ k : Nat, ((k : Int) < chunkOffset radius cx cy * t.m_verticesPerChunk ∨
          (chunkOffset radius cx cy + 1) * t.m_verticesPerChunk ≤ k) →
        t'.vertexBuffer[k]? = t.vertexBuffer[k]?) ∧
      (∀ k : Nat, ((k : Int) < chunkOffset radius cx cy * t.m_elementsPerChunk ∨
          (chunkOffset radius cx cy + 1) * t.m_elementsPerChunk ≤ k) →
        t'.elementBuffer[k]? = t.elementBuffer[k]?) ∧
      (∀ s' : Int, s' ≠ chunkOffset radius cx cy →
        (∀ k : Nat, s' * t.m_verticesPerChunk ≤ k →
          (k : Int) < (s' + 1) * t.m_verticesPerChunk →
          t'.vertexBuffer[k]? = t.vertexBuffer[k]?) ∧
        (∀ k : Nat, s' * t.m_elementsPerChunk ≤ k →
          (k : Int) < (s' + 1) * t.m_elementsPerChunk →
          t'.elementBuffer[k]? = t.elementBuffer[k]?)) := by
  obtain ⟨t', s, V, E, hs, _, _, _, cV, cE, _, _, _, hok, hvb, heb, _, _⟩ :=
    updateChunk_inRange t radius detail hr hd ht cx cy x y h hx hy hlen
  have frameV : ∀ k : Nat, ((k : Int) < chunkOffset radius cx cy * t.m_verticesPerChunk ∨
      (chunkOffset radius cx cy + 1) * t.m_verticesPerChunk ≤ k) →
      t'.vertexBuffer[k]? = t.vertexBuffer[k]? := by
    intro k hk
    rw [hvb, writeAt_getElem?, if_neg]
    rintro ⟨h1, h2, _⟩
    rw [hs, ← cV] at hk
    have h1' : ((V * s : Nat) : Int) ≤ k := by exact_mod_cast h1
    have h2' : (k : Int) < ((V * s + V : Nat) : Int) := by exact_mod_cast h2
    push_cast at h1' h2'
    rcases hk with hk | hk
    · linarith
    · linarith
  have frameE : ∀ k : Nat, ((k : Int) < chunkOffset radius cx cy * t.m_elementsPerChunk ∨
      (chunkOffset radius cx cy + 1) * t.m_elementsPerChunk ≤ k) →
      t'.elementBuffer[k]? = t.elementBuffer[k]? := by
    intro k hk
    rw [heb, writeAt_getElem?, if_neg]
    rintro ⟨h1, h2, _⟩
    rw [hs, ← cE] at hk
    have h1' : ((E * s : Nat) : Int) ≤ k := by exact_mod_cast h1
    have h2' : (k : Int) < ((E * s + E : Nat) : Int) := by exact_mod_cast h2
    push_cast at h1' h2'
    rcases hk with hk | hk
    · linarith
    · linarith
  have other : ∀ (m s' : Int) (k : Nat), 0 ≤ m → s' ≠ chunkOffset radius cx cy →
      s' * m ≤ k → (k : Int) < (s' + 1) * m →
      ((k : Int) < chunkOffset radius cx cy * m ∨ (chunkOffset radius cx cy + 1) * m ≤ k) := by
    intro m s' k hm hne h1 h2
    rcases lt_or_gt_of_ne hne with hlt | hgt
    · left
      have : (s' + 1) * m ≤ chunkOffset radius cx cy * m :=
        mul_le_mul_of_nonneg_right (by omega) hm
      linarith
    · right
      have : (chunkOffset radius cx cy + 1) * m ≤ s' * m :=
        mul_le_mul_of_nonneg_right (by omega) hm
      linarith
  refine ⟨t', hok, frameV, frameE, ?_⟩
  intro s' hne
  constructor
  · intro k h1 h2
    exact frameV k (other _ s' k (by rw [← cV]; omega) hne h1 h2)
  · intro k h1 h2
    exact frameE k (other _ s' k (by rw [← cE]; omega) hne h1 h2)

/-- Witness of C3: radius 2, detail 1, chunk (0, 0), four heights. -/
theorem updateChunk_frame_witness :
    (1 ≤ (2 : Int)) ∧
    (1 ≤ (1 : Int)) ∧
    (Configured (reset blank 2 1) (2 : Int) (1 : Int)) ∧
    (-((2 : Int) - 1) ≤ (0 : Int) ∧ (0 : Int) ≤ (2 : Int) - 1) ∧
    (-((2 : Int) - 1) ≤ (0 : Int) ∧ (0 : Int) ≤ (2 : Int) - 1) ∧
    ((([1, 2, 3, 4] : List ℚ).length : Int) = (reset blank 2 1).m_verticesPerChunk) ∧
    (∃ t', updateChunk (reset blank 2 1) (0 : Int) (0 : Int) (0 : Int) (0 : Int) ([1, 2, 3, 4] : List ℚ) = Except.ok t' ∧
        (∀ k : Nat, ((k : Int) < chunkOffset (2 : Int) (0 : Int) (0 : Int) * (reset blank 2 1).m_verticesPerChunk ∨
            (chunkOffset (2 : Int) (0 : Int) (0 : Int) + 1) * (reset blank 2 1).m_verticesPerChunk ≤ k) →
          t'.vertexBuffer[k]? = (reset blank 2 1).vertexBuffer[k]?) ∧
        (∀ k : Nat, ((k : Int) < chunkOffset (2 : Int) (0 : Int) (0 : Int) * (reset blank 2 1).m_elementsPerChunk ∨
            (chunkOffset (2 : Int) (0 : Int) (0 : Int) + 1) * (reset blank 2 1).m_elementsPerChunk ≤ k) →
          t'.elementBuffer[k]? = (reset blank 2 1).elementBuffer[k]?) ∧
        (∀ s' : Int, s' ≠ chunkOffset (2 : Int) (0 : Int) (0 : Int) →
          (∀ k : Nat, s' * (reset blank 2 1).m_verticesPerChunk ≤ k →
            (k : Int) < (s' + 1) * (reset blank 2 1).m_verticesPerChunk →
            t'.vertexBuffer[k]? = (reset blank 2 1).vertexBuffer[k]?) ∧
          (∀ k : Nat, s' * (reset blank 2 1).m_elementsPerChunk ≤ k →
            (k : Int) < (s' + 1) * (reset blank 2 1).m_elementsPerChunk →
            t'.elementBuffer[k]? = (reset blank 2 1).elementBuffer[k]?))) :=
  ⟨by decide, by decide, reset_configured blank 2 1, by decide, by decide, by decide,
    updateChunk_frame (reset blank 2 1) (2 : Int) (1 : Int) (by decide) (by decide) (reset_configured blank 2 1) (0 : Int) (0 : Int) (0 : Int) (0 : Int) ([1, 2, 3, 4] : List ℚ) (by decide) (by decide) (by decide)⟩

/-- C4: on a state sized by `reset(radius, detail)`, for an in-range chunk with
slot `s = chunkOffset radius cx cy`, `updateChunk` writes exactly
`verticesPerChunk` vertices (the block built by the vertex loop) starting at
vertex position `verticesPerChunk * s`, passing byte offset
`sizeof(Vertex) * verticesPerChunk * s`, and exactly `indicesPerChunk` indices
(the block built by the index loop) starting at index position
`indicesPerChunk * s`, passing byte offset `sizeof(GLuint) * indicesPerChunk * s`;
positions outside the two windows keep their content.  For `reset(2, 2)` and
chunk `(0, 0)` the slot is 4, the vertex block starts at vertex position 36 and
the index block at index position 96. -/
theorem updateChunk_writes_slot (t : TerrainRenderer) (radius detail : Int)
    (hr : 1 ≤ radius) (hd : 1 ≤ detail) (ht : Configured t radius detail)
    (cx cy x y : Int) (h : List ℚ)
    (hx : -(radius - 1) ≤ cx ∧ cx ≤ radius - 1) (hy : -(radius - 1) ≤ cy ∧ cy ≤ radius - 1)
    (hlen : (h.length : Int) = t.m_verticesPerChunk) :
    (∃ (t' : TerrainRenderer) (c : Nat) (vertices : List Vertex) (pv pe : Nat),
      vertexLoop t.m_detail x y h = Except.ok (c, vertices) ∧
      (vertices.length : Int) = t.m_verticesPerChunk ∧
      ((elementLoop t.m_detail
        (t.m_verticesPerChunk * chunkOffset radius cx cy)).length : Int)
        = t.m_elementsPerChunk ∧
      (pv : Int) = t.m_verticesPerChunk * chunkOffset radius cx cy ∧
      (pe : Int) = t.m_elementsPerChunk * chunkOffset radius cx cy ∧
      updateChunk t cx cy x y h = Except.ok t' ∧
      t'.glError = t.glError ∧
      t'.glCalls = t.glCalls ++
        [GLCall.glBufferSubData BufferTarget.GL_ARRAY_BUFFER
            (sizeofVertex * t.m_verticesPerChunk * chunkOffset radius cx cy)
            (sizeofVertex * t.m_verticesPerChunk),
         GLCall.glBufferSubData BufferTarget.GL_ELEMENT_ARRAY_BUFFER
            (sizeofGLuint * t.m_elementsPerChunk * chunkOffset radius cx cy)
            (sizeofGLuint * t.m_elementsPerChunk)] ∧
      (∀ (j : Nat) (v : Vertex), vertices[j]? = some v →
        t'.vertexBuffer[pv + j]? = some (some v)) ∧
      (∀ k : Nat, k < pv ∨ pv + vertices.length ≤ k →
        t'.vertexBuffer[k]? = t.vertexBuffer[k]?) ∧
      (∀ (j : Nat) (e : Nat),
        (elementLoop t.m_detail (t.m_verticesPerChunk * chunkOffset radius cx cy))[j]? = some e →
        t'.elementBuffer[pe + j]? = some (some e)) ∧
      (∀ k : Nat, k < pe ∨
        pe + (elementLoop t.m_detail
          (t.m_verticesPerChunk * chunkOffset radius cx cy)).length ≤ k →
        t'.elementBuffer[k]? = t.elementBuffer[k]?)) ∧
    chunkOffset (reset t 2 2).m_radius 0 0 = 4 ∧
    (reset t 2 2).m_verticesPerChunk * chunkOffset (reset t 2 2).m_radius 0 0 = 36 ∧
    (reset t 2 2).m_elementsPerChunk * chunkOffset (reset t 2 2).m_radius 0 0 = 96 := by
  refine ⟨?_, by simp only [reset, chunkOffset]; decide, by simp only [reset, chunkOffset, sq]; decide,
    by simp only [reset, chunkOffset, sq]; decide⟩
  obtain ⟨t', s, V, E, hs, _, hV, hE, cV, cE, hl, fV, fE, hok, hvb, heb, herr, hcalls⟩ :=
    updateChunk_inRange t radius detail hr hd ht cx cy x y h hx hy hlen
  have hdt : t.m_detail = detail := ht.2.1
  have hvl : (chunkVertices detail x y h).length = V := by rw [chunkVertices_length, hV]
  have hel : ∀ v, (elementLoop detail v).length = E := by
    intro v; rw [elementLoop_length, hE]
  refine ⟨t', V, chunkVertices detail x y h, V * s, E * s, ?_, ?_, ?_, ?_, ?_, hok, herr, ?_,
    ?_, ?_, ?_, ?_⟩
  · rw [vertexLoop_eq, hdt, if_pos (by rw [← hV]; omega), ← hV]
  · rw [hvl, cV]
  · rw [hdt, hel, cE]
  · rw [hs, Nat.cast_mul, cV]
  · rw [hs, Nat.cast_mul, cE]
  · rw [hcalls, hs]
  · intro j v hj
    have hjlt : j < V := by
      rw [← hvl]
      exact (List.getElem?_eq_some_iff.mp hj).1
    rw [hvb, writeAt_window _ _ _ _ fV j hjlt, hj]
  · intro k hk
    rw [hvb]
    rw [hvl] at hk
    exact writeAt_outside _ _ _ _ k hk
  · intro j e hj
    rw [hdt, hs] at hj
    have hjlt : j < E := by
      rw [← hel (t.m_verticesPerChunk * s)]
      exact (List.getElem?_eq_some_iff.mp hj).1
    rw [heb, writeAt_window _ _ _ _ fE j hjlt, hj]
  · intro k hk
    rw [heb]
    rw [hdt, hel] at hk
    exact writeAt_outside _ _ _ _ k hk

/-- Witness of C4: `reset(2, 2)` followed by `updateChunk(0, 0, 0, 0, h)` with nine heights. -/
theorem updateChunk_writes_slot_witness :
    (1 ≤ (2 : Int)) ∧
    (1 ≤ (2 : Int)) ∧
    (Configured (reset blank 2 2) (2 : Int) (2 : Int)) ∧
    (-((2 : Int) - 1) ≤ (0 : Int) ∧ (0 : Int) ≤ (2 : Int) - 1) ∧
    (-((2 : Int) - 1) ≤ (0 : Int) ∧ (0 : Int) ≤ (2 : Int) - 1) ∧
    ((([0, 1, 2, 3, 4, 5, 6, 7, 8] : List ℚ).length : Int) = (reset blank 2 2).m_verticesPerChunk) ∧
    ((∃ (t' : TerrainRenderer) (c : Nat) (vertices : List Vertex) (pv pe : Nat),
        vertexLoop (reset blank 2 2).m_detail (0 : Int) (0 : Int) ([0, 1, 2, 3, 4, 5, 6, 7, 8] : List ℚ) = Except.ok (c, vertices) ∧
        (vertices.length : Int) = (reset blank 2 2).m_verticesPerChunk ∧
        ((elementLoop (reset blank 2 2).m_detail
          ((reset blank 2 2).m_verticesPerChunk * chunkOffset (2 : Int) (0 : Int) (0 : Int))).length : Int)
          = (reset blank 2 2).m_elementsPerChunk ∧
        (pv : Int) = (reset blank 2 2).m_verticesPerChunk * chunkOffset (2 : Int) (0 : Int) (0 : Int) ∧
        (pe : Int) = (reset blank 2 2).m_elementsPerChunk * chunkOffset (2 : Int) (0 : Int) (0 : Int) ∧
        updateChunk (reset blank 2 2) (0 : Int) (0 : Int) (0 : Int) (0 : Int) ([0, 1, 2, 3, 4, 5, 6, 7, 8] : List ℚ) = Except.ok t' ∧
        t'.glError = (reset blank 2 2).glError ∧
        t'.glCalls = (reset blank 2 2).glCalls ++
          [GLCall.glBufferSubData BufferTarget.GL_ARRAY_BUFFER
              (sizeofVertex * (reset blank 2 2).m_verticesPerChunk * chunkOffset (2 : Int) (0 : Int) (0 : Int))
              (sizeofVertex * (reset blank 2 2).m_verticesPerChunk),
           GLCall.glBufferSubData BufferTarget.GL_ELEMENT_ARRAY_BUFFER
              (sizeofGLuint * (reset blank 2 2).m_elementsPerChunk * chunkOffset (2 : Int) (0 : Int) (0 : Int))
              (sizeofGLuint * (reset blank 2 2).m_elementsPerChunk)] ∧
        (∀ (j : Nat) (v : Vertex), vertices[j]? = some v →
          t'.vertexBuffer[pv + j]? = some (some v)) ∧
        (∀ k : Nat, k < pv ∨ pv + vertices.length ≤ k →
          t'.vertexBuffer[k]? = (reset blank 2 2).vertexBuffer[k]?) ∧
        (∀ (j : Nat) (e : Nat),
          (elementLoop (reset blank 2 2).m_detail ((reset blank 2 2).m_verticesPerChunk * chunkOffset (2 : Int) (0 : Int) (0 : Int)))[j]? = some e →
          t'.elementBuffer[pe + j]? = some (some e)) ∧
        (∀ k : Nat, k < pe ∨
          pe + (elementLoop (reset blank 2 2).m_detail
            ((reset blank 2 2).m_verticesPerChunk * chunkOffset (2 : Int) (0 : Int) (0 : Int))).length ≤ k →
          t'.elementBuffer[k]? = (reset blank 2 2).elementBuffer[k]?)) ∧
      chunkOffset (reset (reset blank 2 2) 2 2).m_radius 0 0 = 4 ∧
      (reset (reset blank 2 2) 2 2).m_verticesPerChunk * chunkOffset (reset (reset blank 2 2) 2 2).m_radius 0 0 = 36 ∧
      (reset (reset blank 2 2) 2 2).m_elementsPerChunk * chunkOffset (reset (reset blank 2 2) 2 2).m_radius 0 0 = 96) :=
  ⟨by decide, by decide, reset_configured blank 2 2, by decide, by decide, by decide,
    updateChunk_writes_slot (reset blank 2 2) (2 : Int) (2 : Int) (by decide) (by decide) (reset_configured blank 2 2) (0 : Int) (0 : Int) (0 : Int) (0 : Int) ([0, 1, 2, 3, 4, 5, 6, 7, 8] : List ℚ) (by decide) (by decide) (by decide)⟩

/-- C5: round trip of `updateChunk` in exact arithmetic.  On a state sized by
`reset(radius, detail)` with detail ≥ 1, for an in-range chunk, every world
offset `(coord_x, coord_y)` and heights of length `(detail+1)^2`, the vertex
read back at local position `c = i*(detail+1) + j` of the chunk's slot (that is
at vertex position `verticesPerChunk * slot + c`), for all `i, j` in
`[0, detail]`, has height `heights[c]`, `x = coord_x + i/detail - 1/2` and
`y = coord_y + j/detail - 1/2`; with world offset `(0, 0)` vertex 0 of the
slot is `(-1/2, -1/2, heights[0])`. -/
theorem updateChunk_roundtrip (t : TerrainRenderer) (radius detail : Int)
    (hr : 1 ≤ radius) (hd : 1 ≤ detail) (ht : Configured t radius detail)
    (cx cy coord_x coord_y : Int) (heights : List ℚ)
    (hx : -(radius - 1) ≤ cx ∧ cx ≤ radius - 1) (hy : -(radius - 1) ≤ cy ∧ cy ≤ radius - 1)
    (hlen : (heights.length : Int) = t.m_verticesPerChunk) :
    ∃ t', updateChunk t cx cy coord_x coord_y heights = Except.ok t' ∧
      (∀ p i j c : Nat, (p : Int) = t.m_verticesPerChunk * chunkOffset radius cx cy →
        (i : Int) ≤ detail → (j : Int) ≤ detail → (c : Int) = i * (detail + 1) + j →
        ∃ (height : ℚ) (v : Vertex), heights[c]? = some height ∧
          t'.vertexBuffer[p + c]? = some (some v) ∧
          v.position = ((coord_x : ℚ) + (i : ℚ) / (detail : ℚ) - 1 / 2,
                        (coord_y : ℚ) + (j : ℚ) / (detail : ℚ) - 1 / 2, height)) ∧
      (coord_x = 0 → coord_y = 0 →
        ∀ p : Nat, (p : Int) = t.m_verticesPerChunk * chunkOffset radius cx cy →
        ∃ (height : ℚ) (v : Vertex), heights[0]? = some height ∧
          t'.vertexBuffer[p]? = some (some v) ∧
          v.position = (-1 / 2, -1 / 2, height)) := by
  obtain ⟨t', s, V, E, hs, _, hV, hE, cV, cE, hl, fV, fE, hok, hvb, heb, herr, hcalls⟩ :=
    updateChunk_inRange t radius detail hr hd ht cx cy coord_x coord_y heights hx hy hlen
  have hn : ((detail + 1).toNat : Int) = detail + 1 := Int.toNat_of_nonneg (by omega)
  have main : ∀ p i j c : Nat, (p : Int) = t.m_verticesPerChunk * chunkOffset radius cx cy →
      (i : Int) ≤ detail → (j : Int) ≤ detail → (c : Int) = i * (detail + 1) + j →
      heights[c]? = some (heights.getD c 0) ∧
      t'.vertexBuffer[p + c]?
        = some (some (gridVertex detail coord_x coord_y i j (heights.getD c 0))) := by
    intro p i j c hp hi hj hc
    have hp' : p = V * s := by
      have : (p : Int) = ((V * s : Nat) : Int) := by rw [hp, hs, Nat.cast_mul, cV]
      exact_mod_cast this
    have hi' : i < (detail + 1).toNat := by omega
    have hj' : j < (detail + 1).toNat := by omega
    have hc' : c = i * (detail + 1).toNat + j := by
      have : (c : Int) = ((i * (detail + 1).toNat + j : Nat) : Int) := by
        rw [hc]; push_cast; rw [hn]
      exact_mod_cast this
    have hcV : c < V := by
      rw [hc', hV]
      calc i * (detail + 1).toNat + j < i * (detail + 1).toNat + (detail + 1).toNat := by omega
        _ = (i + 1) * (detail + 1).toNat := by ring
        _ ≤ (detail + 1).toNat * (detail + 1).toNat := Nat.mul_le_mul_right _ hi'
    constructor
    · rw [List.getElem?_eq_getElem (by omega), List.getD_eq_getElem?_getD,
        List.getElem?_eq_getElem (by omega)]
      rfl
    · rw [hvb, hp', writeAt_window _ _ _ _ fV c hcV,
        chunkVertices_getElem? _ _ _ _ c (by rw [← hV]; exact hcV)]
      rw [hc', vertexAt_grid _ _ _ _ _ i j hj']
  refine ⟨t', hok, ?_, ?_⟩
  · intro p i j c hp hi hj hc
    obtain ⟨h1, h2⟩ := main p i j c hp hi hj hc
    exact ⟨_, _, h1, h2, by simp [gridVertex]⟩
  · intro hx0 hy0 p hp
    obtain ⟨h1, h2⟩ := main p 0 0 0 hp (by omega) (by omega) (by simp)
    exact ⟨_, _, h1, h2, by simp [gridVertex, hx0, hy0]; norm_num⟩

/-- Witness of C5: `reset(2, 2)` followed by `updateChunk(0, 0, 0, 0, h)` with nine heights. -/
theorem updateChunk_roundtrip_witness :
    (1 ≤ (2 : Int)) ∧
    (1 ≤ (2 : Int)) ∧
    (Configured (reset blank 2 2) (2 : Int) (2 : Int)) ∧
    (-((2 : Int) - 1) ≤ (0 : Int) ∧ (0 : Int) ≤ (2 : Int) - 1) ∧
    (-((2 : Int) - 1) ≤ (0 : Int) ∧ (0 : Int) ≤ (2 : Int) - 1) ∧
    ((([0, 1, 2, 3, 4, 5, 6, 7, 8] : List ℚ).length : Int) = (reset blank 2 2).m_verticesPerChunk) ∧
    (∃ t', updateChunk (reset blank 2 2) (0 : Int) (0 : Int) (0 : Int) (0 : Int) ([0, 1, 2, 3, 4, 5, 6, 7, 8] : List ℚ) = Except.ok t' ∧
        (∀ p i j c : Nat, (p : Int) = (reset blank 2 2).m_verticesPerChunk * chunkOffset (2 : Int) (0 : Int) (0 : Int) →
          (i : Int) ≤ (2 : Int) → (j : Int) ≤ (2 : Int) → (c : Int) = i * ((2 : Int) + 1) + j →
          ∃ (height : ℚ) (v : Vertex), ([0, 1, 2, 3, 4, 5, 6, 7, 8] : List ℚ)[c]? = some height ∧
            t'.vertexBuffer[p + c]? = some (some v) ∧
            v.position = (((0 : Int) : ℚ) + (i : ℚ) / ((2 : Int) : ℚ) - 1 / 2,
                          ((0 : Int) : ℚ) + (j : ℚ) / ((2 : Int) : ℚ) - 1 / 2, height)) ∧
        ((0 : Int) = 0 → (0 : Int) = 0 →
          ∀ p : Nat, (p : Int) = (reset blank 2 2).m_verticesPerChunk * chunkOffset (2 : Int) (0 : Int) (0 : Int) →
          ∃ (height : ℚ) (v : Vertex), ([0, 1, 2, 3, 4, 5, 6, 7, 8] : List ℚ)[0]? = some height ∧
            t'.vertexBuffer[p]? = some (some v) ∧
            v.position = (-1 / 2, -1 / 2, height))) :=
  ⟨by decide, by decide, reset_configured blank 2 2, by decide, by decide, by decide,
    updateChunk_roundtrip (reset blank 2 2) (2 : Int) (2 : Int) (by decide) (by decide) (reset_configured blank 2 2) (0 : Int) (0 : Int) (0 : Int) (0 : Int) ([0, 1, 2, 3, 4, 5, 6, 7, 8] : List ℚ) (by decide) (by decide) (by decide)⟩

/-- C6: for every detail ≥ 1, every slot `s` and every sub-cell `(i, j)` with
`0 ≤ i, j < detail`, the six indices that `updateChunk` emits for the sub-cell,
at positions `6*(i*detail + j) .. 6*(i*detail + j) + 5` of the chunk's index
block, are, with `v = verticesPerChunk * s` and `tl = v + (detail+1)*i + j`:
`[tl, tl + 1, tl + (detail+1), tl + (detail+1) + 1, tl + 1, tl + (detail+1)]`.
First for the block that the index loop emits, then for the index buffer after
the call, where the block starts at index position `indicesPerChunk * s`. -/
theorem updateChunk_cell_indices (t : TerrainRenderer) (radius detail : Int)
    (hr : 1 ≤ radius) (hd : 1 ≤ detail) (ht : Configured t radius detail)
    (cx cy x y : Int) (h : List ℚ)
    (hx : -(radius - 1) ≤ cx ∧ cx ≤ radius - 1) (hy : -(radius - 1) ≤ cy ∧ cy ≤ radius - 1)
    (hlen : (h.length : Int) = t.m_verticesPerChunk) :
    (∀ (s : Int) (i j q : Nat), 0 ≤ s → (i : Int) < detail → (j : Int) < detail →
      (q : Int) = 6 * (i * detail + j) →
      ∀ tl : Int, tl = t.m_verticesPerChunk * s + (detail + 1) * i + j →
      ∃ e0 e1 e2 e3 e4 e5 : Nat,
        [(elementLoop t.m_detail (t.m_verticesPerChunk * s))[q]?,
         (elementLoop t.m_detail (t.m_verticesPerChunk * s))[q + 1]?,
         (elementLoop t.m_detail (t.m_verticesPerChunk * s))[q + 2]?,
         (elementLoop t.m_detail (t.m_verticesPerChunk * s))[q + 3]?,
         (elementLoop t.m_detail (t.m_verticesPerChunk * s))[q + 4]?,
         (elementLoop t.m_detail (t.m_verticesPerChunk * s))[q + 5]?]
          = [some e0, some e1, some e2, some e3, some e4, some e5] ∧
        [(e0 : Int), (e1 : Int), (e2 : Int), (e3 : Int), (e4 : Int), (e5 : Int)]
          = [tl, tl + 1, tl + (detail + 1), tl + (detail + 1) + 1, tl + 1,
             tl + (detail + 1)]) ∧
    ∃ t', updateChunk t cx cy x y h = Except.ok t' ∧
      ∀ (pe i j q : Nat), (pe : Int) = t.m_elementsPerChunk * chunkOffset radius cx cy →
        (i : Int) < detail → (j : Int) < detail → (q : Int) = 6 * (i * detail + j) →
        ∀ tl : Int,
          tl = t.m_verticesPerChunk * chunkOffset radius cx cy + (detail + 1) * i + j →
        ∃ e0 e1 e2 e3 e4 e5 : Nat,
          [t'.elementBuffer[pe + q]?, t'.elementBuffer[pe + (q + 1)]?,
           t'.elementBuffer[pe + (q + 2)]?, t'.elementBuffer[pe + (q + 3)]?,
           t'.elementBuffer[pe + (q + 4)]?, t'.elementBuffer[pe + (q + 5)]?]
            = [some (some e0), some (some e1), some (some e2), some (some e3),
               some (some e4), some (some e5)] ∧
          [(e0 : Int), (e1 : Int), (e2 : Int), (e3 : Int), (e4 : Int), (e5 : Int)]
            = [tl, tl + 1, tl + (detail + 1), tl + (detail + 1) + 1, tl + 1,
               tl + (detail + 1)] := by
  have hdt : t.m_detail = detail := ht.2.1
  have hV0 : 0 ≤ t.m_verticesPerChunk := by
    rw [ht.2.2.2.2.1]; exact mul_self_nonneg _
  constructor
  · intro s i j q hs hi hj hq tl htl
    obtain ⟨e0, e1, e2, e3, e4, e5, g0, g1, g2, g3, g4, g5, c0, c1, c2, c3, c4, c5⟩ :=
      elementLoop_cell detail (t.m_verticesPerChunk * s) (mul_nonneg hV0 hs) i j q hi hj hq
    refine ⟨e0, e1, e2, e3, e4, e5, ?_, ?_⟩
    · rw [hdt, g0, g1, g2, g3, g4, g5]
    · rw [c0, c1, c2, c3, c4, c5, htl]
  · obtain ⟨t', s, V, E, hs, _, hV, hE, cV, cE, hl, fV, fE, hok, hvb, heb, herr, hcalls⟩ :=
      updateChunk_inRange t radius detail hr hd ht cx cy x y h hx hy hlen
    refine ⟨t', hok, ?_⟩
    intro pe i j q hpe hi hj hq tl htl
    obtain ⟨e0, e1, e2, e3, e4, e5, g0, g1, g2, g3, g4, g5, c0, c1, c2, c3, c4, c5⟩ :=
      elementLoop_cell detail (t.m_verticesPerChunk * s)
        (mul_nonneg hV0 (by omega)) i j q hi hj hq
    have hpe' : pe = E * s := by
      have : (pe : Int) = ((E * s : Nat) : Int) := by rw [hpe, hs, Nat.cast_mul, cE]
      exact_mod_cast this
    have hlenE : (elementLoop detail (t.m_verticesPerChunk * s)).length = E := by
      rw [elementLoop_length, hE]
    have inE : ∀ (k e : Nat), (elementLoop detail (t.m_verticesPerChunk * s))[k]? = some e →
        t'.elementBuffer[pe + k]? = some (some e) := by
      intro k e hk
      have hklt : k < E := by
        rw [← hlenE]
        exact (List.getElem?_eq_some_iff.mp hk).1
      rw [heb, hpe', writeAt_window _ _ _ _ fE k hklt, hk]
    refine ⟨e0, e1, e2, e3, e4, e5, ?_, ?_⟩
    · rw [inE _ _ g0, inE _ _ g1, inE _ _ g2, inE _ _ g3, inE _ _ g4, inE _ _ g5]
    · rw [c0, c1, c2, c3, c4, c5, htl, hs]

/-- Witness of C6: radius 2, detail 2, chunk (1, -1), nine heights. -/
theorem updateChunk_cell_indices_witness :
    (1 ≤ (2 : Int)) ∧
    (1 ≤ (2 : Int)) ∧
    (Configured (reset blank 2 2) (2 : Int) (2 : Int)) ∧
    (-((2 : Int) - 1) ≤ (1 : Int) ∧ (1 : Int) ≤ (2 : Int) - 1) ∧
    (-((2 : Int) - 1) ≤ (-1 : Int) ∧ (-1 : Int) ≤ (2 : Int) - 1) ∧
    ((([0, 1, 2, 3, 4, 5, 6, 7, 8] : List ℚ).length : Int) = (reset blank 2 2).m_verticesPerChunk) ∧
    ((∀ (s : Int) (i j q : Nat), 0 ≤ s → (i : Int) < (2 : Int) → (j : Int) < (2 : Int) →
        (q : Int) = 6 * (i * (2 : Int) + j) →
        ∀ tl : Int, tl = (reset blank 2 2).m_verticesPerChunk * s + ((2 : Int) + 1) * i + j →
        ∃ e0 e1 e2 e3 e4 e5 : Nat,
          [(elementLoop (reset blank 2 2).m_detail ((reset blank 2 2).m_verticesPerChunk * s))[q]?,
           (elementLoop (reset blank 2 2).m_detail ((reset blank 2 2).m_verticesPerChunk * s))[q + 1]?,
           (elementLoop (reset blank 2 2).m_detail ((reset blank 2 2).m_verticesPerChunk * s))[q + 2]?,
           (elementLoop (reset blank 2 2).m_detail ((reset blank 2 2).m_verticesPerChunk * s))[q + 3]?,
           (elementLoop (reset blank 2 2).m_detail ((reset blank 2 2).m_verticesPerChunk * s))[q + 4]?,
           (elementLoop (reset blank 2 2).m_detail ((reset blank 2 2).m_verticesPerChunk * s))[q + 5]?]
            = [some e0, some e1, some e2, some e3, some e4, some e5] ∧
          [(e0 : Int), (e1 : Int), (e2 : Int), (e3 : Int), (e4 : Int), (e5 : Int)]
            = [tl, tl + 1, tl + ((2 : Int) + 1), tl + ((2 : Int) + 1) + 1, tl + 1,
               tl + ((2 : Int) + 1)]) ∧
      ∃ t', updateChunk (reset blank 2 2) (1 : Int) (-1 : Int) (3 : Int) (4 : Int) ([0, 1, 2, 3, 4, 5, 6, 7, 8] : List ℚ) = Except.ok t' ∧
        ∀ (pe i j q : Nat), (pe : Int) = (reset blank 2 2).m_elementsPerChunk * chunkOffset (2 : Int) (1 : Int) (-1 : Int) →
          (i : Int) < (2 : Int) → (j : Int) < (2 : Int) → (q : Int) = 6 * (i * (2 : Int) + j) →
          ∀ tl : Int,
            tl = (reset blank 2 2).m_verticesPerChunk * chunkOffset (2 : Int) (1 : Int) (-1 : Int) + ((2 : Int) + 1) * i + j →
          ∃ e0 e1 e2 e3 e4 e5 : Nat,
            [t'.elementBuffer[pe + q]?, t'.elementBuffer[pe + (q + 1)]?,
             t'.elementBuffer[pe + (q + 2)]?, t'.elementBuffer[pe + (q + 3)]?,
             t'.elementBuffer[pe + (q + 4)]?, t'.elementBuffer[pe + (q + 5)]?]
              = [some (some e0), some (some e1), some (some e2), some (some e3),
                 some (some e4), some (some e5)] ∧
            [(e0 : Int), (e1 : Int), (e2 : Int), (e3 : Int), (e4 : Int), (e5 : Int)]
              = [tl, tl + 1, tl + ((2 : Int) + 1), tl + ((2 : Int) + 1) + 1, tl + 1,
                 tl + ((2 : Int) + 1)]) :=
  ⟨by decide, by decide, reset_configured blank 2 2, by decide, by decide, by decide,
    updateChunk_cell_indices (reset blank 2 2) (2 : Int) (2 : Int) (by decide) (by decide) (reset_configured blank 2 2) (1 : Int) (-1 : Int) (3 : Int) (4 : Int) ([0, 1, 2, 3, 4, 5, 6, 7, 8] : List ℚ) (by decide) (by decide) (by decide)⟩

/-- C7, counterexample: after `reset(1, 1)` (four vertices per chunk),
`updateChunk(0, 0, 0, 0, h)` with five heights does not fail: it returns, no GL
error is raised, and both buffers differ from what they held before the call. -/
theorem updateChunk_long_heights_counterexample :
    (([1, 2, 3, 4, 5] : List ℚ).length : Int) ≠ (reset blank 1 1).m_verticesPerChunk ∧
    ∃ t', updateChunk (reset blank 1 1) 0 0 0 0 [1, 2, 3, 4, 5] = Except.ok t' ∧
      t'.glError = false ∧
      t'.vertexBuffer ≠ (reset blank 1 1).vertexBuffer ∧
      t'.elementBuffer ≠ (reset blank 1 1).elementBuffer := by
  refine ⟨by decide, _, updateChunk_slot (reset blank 1 1) 1 1 (by decide)
    (reset_configured blank 1 1) 0 0 0 0 [1, 2, 3, 4, 5] (by decide) 0 (by decide) (by decide),
    by decide, ?_, ?_⟩
  · intro heq
    have h0 := congrArg (fun l => l[0]?) heq
    simp only at h0
    rw [show (1 + 1 : Int).toNat * (1 + 1 : Int).toNat * 0 = 0 + 0 from by decide,
      writeAt_window _ _ _ _ (by decide) 0 (by decide),
      chunkVertices_getElem? _ _ _ _ 0 (by decide)] at h0
    exact absurd h0 (by decide)
  · intro heq
    have h0 := congrArg (fun l => l[0]?) heq
    simp only at h0
    rw [show 6 * ((1 : Int).toNat * (1 : Int).toNat) * 0 = 0 + 0 from by decide,
      writeAt_window _ _ _ _ (by decide) 0 (by decide),
      elementLoop_getElem? _ _ 0 (by decide)] at h0
    exact absurd h0 (by decide)

/-- C7, amended: `updateChunk` does not check the length of the heights.  On a
state sized by `reset(radius, detail)` with detail ≥ 1 and heights longer than
`verticesPerChunk`, the call does not fail: it returns, and returns exactly
what it returns for the first `verticesPerChunk` heights, the surplus being
ignored. -/
theorem updateChunk_surplus_heights (t : TerrainRenderer) (radius detail : Int)
    (hd : 1 ≤ detail) (ht : Configured t radius detail) (cx cy x y : Int) (h : List ℚ)
    (hlong : t.m_verticesPerChunk < (h.length : Int)) :
    ∃ t', updateChunk t cx cy x y h = Except.ok t' ∧
      updateChunk t cx cy x y (h.take t.m_verticesPerChunk.toNat) = Except.ok t' ∧
      ((h.take t.m_verticesPerChunk.toNat).length : Int) = t.m_verticesPerChunk := by
  have hd0 : 0 ≤ detail := by omega
  have cV := verticesPerChunk_cast detail hd0
  rw [← ht.2.2.2.2.1] at cV
  have hVn : t.m_verticesPerChunk.toNat = (detail + 1).toNat * (detail + 1).toNat := by
    rw [← cV]; exact Int.toNat_ofNat _
  have hle : (detail + 1).toNat * (detail + 1).toNat ≤ h.length := by omega
  refine ⟨_, updateChunk_eq t radius detail hd0 ht cx cy x y h hle, ?_, ?_⟩
  · rw [updateChunk_eq t radius detail hd0 ht cx cy x y _
      (by rw [hVn, List.length_take]; omega), hVn, chunkVertices_take]
  · rw [hVn, List.length_take, ← cV]
    omega

/-- Witness of C7 (amended): `reset(1, 1)` and five heights. -/
theorem updateChunk_surplus_heights_witness :
    ((1 : Int) ≤ 1) ∧
    Configured (reset blank 1 1) 1 1 ∧
    ((reset blank 1 1).m_verticesPerChunk < (([1, 2, 3, 4, 5] : List ℚ).length : Int)) ∧
    (∃ t', updateChunk (reset blank 1 1) 0 0 0 0 [1, 2, 3, 4, 5] = Except.ok t' ∧
      updateChunk (reset blank 1 1) 0 0 0 0
        (([1, 2, 3, 4, 5] : List ℚ).take (reset blank 1 1).m_verticesPerChunk.toNat)
        = Except.ok t' ∧
      (((([1, 2, 3, 4, 5] : List ℚ).take (reset blank 1 1).m_verticesPerChunk.toNat).length
        : Nat) : Int) = (reset blank 1 1).m_verticesPerChunk) :=
  ⟨by decide, reset_configured blank 1 1, by decide,
    updateChunk_surplus_heights (reset blank 1 1) 1 1 (by decide) (reset_configured blank 1 1)
      0 0 0 0 [1, 2, 3, 4, 5] (by decide)⟩

/-- C8, counterexample: with radius 2 (and detail 1) the coordinate `(0, 2)`
is out of range, yet `updateChunk(0, 2, ...)` is not rejected: it returns with
no GL error raised and has overwritten slot 6, the slot of the in-range chunk
`(1, -1)` (vertex position `6 * 4`, index position `6 * 6`). -/
theorem updateChunk_out_of_range_counterexample :
    ¬ ((2 : Int) ≤ 2 - 1) ∧
    chunkOffset 2 0 2 = 6 ∧ chunkOffset 2 1 (-1) = 6 ∧
    ∃ t', updateChunk (reset blank 2 1) 0 2 0 0 [1, 2, 3, 4] = Except.ok t' ∧
      t'.glError = false ∧
      t'.vertexBuffer[6 * 4]? ≠ (reset blank 2 1).vertexBuffer[6 * 4]? ∧
      t'.elementBuffer[6 * 6]? ≠ (reset blank 2 1).elementBuffer[6 * 6]? := by
  refine ⟨by decide, by decide, by decide, _, updateChunk_slot (reset blank 2 1) 2 1 (by decide)
    (reset_configured blank 2 1) 0 2 0 0 [1, 2, 3, 4] (by decide) 6 (by decide) (by decide),
    by decide, ?_, ?_⟩
  · intro h0
    simp only at h0
    rw [show 6 * 4 = (1 + 1 : Int).toNat * (1 + 1 : Int).toNat * 6 + 0 from by decide,
      writeAt_window _ _ _ _ (by decide) 0 (by decide),
      chunkVertices_getElem? _ _ _ _ 0 (by decide)] at h0
    exact absurd h0 (by decide)
  · intro h0
    simp only at h0
    rw [show 6 * 6 = 6 * ((1 : Int).toNat * (1 : Int).toNat) * 6 + 0 from by decide,
      writeAt_window _ _ _ _ (by decide) 0 (by decide),
      elementLoop_getElem? _ _ 0 (by decide)] at h0
    exact absurd h0 (by decide)

/-- C8, amended: `updateChunk` does not check `chunk_x` and `chunk_y`.  On a
state sized by `reset(radius, detail)` with radius ≥ 1, detail ≥ 1 and
`verticesPerChunk` heights, the call returns for any coordinates.  When the
computed offset lies in `[0, chunkCount)`, no error is raised and the result
is exactly the result of the call for the in-range chunk that owns that slot
(so an out-of-range coordinate with such an offset overwrites that chunk's
slot).  When the offset lies outside `[0, chunkCount)`, GL rejects both writes:
the error flag is set and both buffers are what they were, so nothing is
written past the end of the buffers. -/
theorem updateChunk_unchecked_coordinates (t : TerrainRenderer) (radius detail : Int)
    (hr : 1 ≤ radius) (hd : 1 ≤ detail) (ht : Configured t radius detail)
    (cx cy x y : Int) (h : List ℚ) (hlen : (h.length : Int) = t.m_verticesPerChunk) :
    ∃ t', updateChunk t cx cy x y h = Except.ok t' ∧
      ((0 ≤ chunkOffset radius cx cy ∧ chunkOffset radius cx cy < t.m_chunks) →
        t'.glError = t.glError ∧
        ∃ cx' cy', (-(radius - 1) ≤ cx' ∧ cx' ≤ radius - 1) ∧
          (-(radius - 1) ≤ cy' ∧ cy' ≤ radius - 1) ∧
          chunkOffset radius cx' cy' = chunkOffset radius cx cy ∧
          updateChunk t cx' cy' x y h = Except.ok t') ∧
      ((chunkOffset radius cx cy < 0 ∨ t.m_chunks ≤ chunkOffset radius cx cy) →
        t'.vertexBuffer = t.vertexBuffer ∧ t'.elementBuffer = t.elementBuffer ∧
        t'.glError = true) := by
  have hd0 : 0 ≤ detail := by omega
  have cV := verticesPerChunk_cast detail hd0
  rw [← ht.2.2.2.2.1] at cV
  have hle : (detail + 1).toNat * (detail + 1).toNat ≤ h.length := by omega
  by_cases hin : 0 ≤ chunkOffset radius cx cy ∧ chunkOffset radius cx cy < t.m_chunks
  · obtain ⟨s, hs⟩ := Int.eq_ofNat_of_zero_le hin.1
    have hlt : (s : Int) < t.m_chunks := by rw [← hs]; exact hin.2
    refine ⟨_, updateChunk_slot t radius detail hd0 ht cx cy x y h hle s hs hlt, ?_, ?_⟩
    · intro _
      refine ⟨rfl, ?_⟩
      obtain ⟨cx', cy', hx', hy', he⟩ := chunkOffset_surjective radius (chunkOffset radius cx cy)
        hr hin.1 (by have := hin.2; rw [ht.2.2.1, sq, ← pow_two] at this; exact this)
      exact ⟨cx', cy', hx', hy', he,
        updateChunk_slot t radius detail hd0 ht cx' cy' x y h hle s (he.trans hs) hlt⟩
    · intro hout
      omega
  · have hout : chunkOffset radius cx cy < 0 ∨ t.m_chunks ≤ chunkOffset radius cx cy := by
      by_contra hc
      exact hin ⟨by omega, by omega⟩
    refine ⟨_, updateChunk_outside t radius detail hd ht cx cy x y h hle hout, ?_, ?_⟩
    · intro hin'
      exact absurd hin' hin
    · intro _
      exact ⟨rfl, rfl, rfl⟩

/-- Witness of C8 (amended): radius 2, detail 1, coordinate `(1, 2)`, whose
offset is 9. -/
theorem updateChunk_unchecked_coordinates_witness :
    ((1 : Int) ≤ 2) ∧ ((1 : Int) ≤ 1) ∧ Configured (reset blank 2 1) 2 1 ∧
    ((([1, 2, 3, 4] : List ℚ).length : Int) = (reset blank 2 1).m_verticesPerChunk) ∧
    (∃ t', updateChunk (reset blank 2 1) 1 2 0 0 [1, 2, 3, 4] = Except.ok t' ∧
      ((0 ≤ chunkOffset 2 1 2 ∧ chunkOffset 2 1 2 < (reset blank 2 1).m_chunks) →
        t'.glError = (reset blank 2 1).glError ∧
        ∃ cx' cy', (-(2 - 1) ≤ cx' ∧ cx' ≤ 2 - 1) ∧
          (-(2 - 1) ≤ cy' ∧ cy' ≤ 2 - 1) ∧
          chunkOffset 2 cx' cy' = chunkOffset 2 1 2 ∧
          updateChunk (reset blank 2 1) cx' cy' 0 0 [1, 2, 3, 4] = Except.ok t') ∧
      ((chunkOffset 2 1 2 < 0 ∨ (reset blank 2 1).m_chunks ≤ chunkOffset 2 1 2) →
        t'.vertexBuffer = (reset blank 2 1).vertexBuffer ∧
        t'.elementBuffer = (reset blank 2 1).elementBuffer ∧
        t'.glError = true)) :=
  ⟨by decide, by decide, reset_configured blank 2 1, by decide,
    updateChunk_unchecked_coordinates (reset blank 2 1) 2 1 (by decide) (by decide)
      (reset_configured blank 2 1) 1 2 0 0 [1, 2, 3, 4] (by decide)⟩

/-- C9, counterexample: on the state left by `reset(2, 1)`, the call
`reset(0, 0)` (radius < 1 and detail < 1) is not rejected: no error is raised,
and the stored radius, detail, derived sizes and both buffers have changed. -/
theorem reset_invalid_counterexample :
    (0 : Int) < 1 ∧
    (reset (reset blank 2 1) 0 0).glError = false ∧
    (reset (reset blank 2 1) 0 0).m_radius ≠ (reset blank 2 1).m_radius ∧
    (reset (reset blank 2 1) 0 0).m_detail ≠ (reset blank 2 1).m_detail ∧
    (reset (reset blank 2 1) 0 0).m_chunks ≠ (reset blank 2 1).m_chunks ∧
    (reset (reset blank 2 1) 0 0).m_verticesPerChunk ≠ (reset blank 2 1).m_verticesPerChunk ∧
    (reset (reset blank 2 1) 0 0).m_elementsPerChunk ≠ (reset blank 2 1).m_elementsPerChunk ∧
    (reset (reset blank 2 1) 0 0).vertexBuffer ≠ (reset blank 2 1).vertexBuffer ∧
    (reset (reset blank 2 1) 0 0).elementBuffer ≠ (reset blank 2 1).elementBuffer := by
  refine ⟨by decide, by decide, by decide, by decide, by decide, by decide, by decide, ?_, ?_⟩
  · intro h
    exact absurd (congrArg List.length h) (by decide)
  · intro h
    exact absurd (congrArg List.length h) (by decide)

/-- C9, amended: `reset` does not check its arguments.  For every radius and
detail, those below 1 included, it stores them, recomputes the derived sizes
by the same formulas, replaces both buffers by stores of
`verticesPerChunk * chunkCount` and `indicesPerChunk * chunkCount` undefined
elements through two `glBufferData` calls, and raises no GL error. -/
theorem reset_unchecked (t : TerrainRenderer) (radius detail : Int) :
    (reset t radius detail).m_radius = radius ∧
    (reset t radius detail).m_detail = detail ∧
    (reset t radius detail).m_chunks = (2 * radius - 1) ^ 2 ∧
    (reset t radius detail).m_verticesPerChunk = (detail + 1) ^ 2 ∧
    (reset t radius detail).m_elementsPerChunk = 6 * detail ^ 2 ∧
    (reset t radius detail).vertexBuffer
      = List.replicate ((detail + 1) ^ 2 * (2 * radius - 1) ^ 2).toNat none ∧
    (reset t radius detail).elementBuffer
      = List.replicate (6 * detail ^ 2 * (2 * radius - 1) ^ 2).toNat none ∧
    (reset t radius detail).glError = t.glError ∧
    (reset t radius detail).glCalls = t.glCalls ++
      [GLCall.glBufferData BufferTarget.GL_ARRAY_BUFFER
          (sizeofVertex * (detail + 1) ^ 2 * (2 * radius - 1) ^ 2),
       GLCall.glBufferData BufferTarget.GL_ELEMENT_ARRAY_BUFFER
          (sizeofGLuint * (6 * detail ^ 2) * (2 * radius - 1) ^ 2)] := by
  have hV : 0 ≤ (detail + 1) ^ 2 * (2 * radius - 1) ^ 2 := by positivity
  have hE : 0 ≤ 6 * detail ^ 2 * (2 * radius - 1) ^ 2 := by positivity
  have e1 : sq (2 * radius - 1) = (2 * radius - 1) ^ 2 := by rw [sq, pow_two]
  have e2 : sq (detail + 1) = (detail + 1) ^ 2 := by rw [sq, pow_two]
  have e3 : 2 * 3 * sq detail = 6 * detail ^ 2 := by rw [sq, pow_two]; norm_num
  have bV : bufferData sizeofVertex (sizeofVertex * (detail + 1) ^ 2 * (2 * radius - 1) ^ 2)
      t.vertexBuffer
      = (List.replicate ((detail + 1) ^ 2 * (2 * radius - 1) ^ 2).toNat none, false) := by
    simp only [bufferData, sizeofVertex]
    rw [if_neg (by rw [mul_assoc]; omega), mul_assoc,
      Int.mul_ediv_cancel_left _ (by norm_num : (20 : Int) ≠ 0)]
  have bE : bufferData sizeofGLuint (sizeofGLuint * (6 * detail ^ 2) * (2 * radius - 1) ^ 2)
      t.elementBuffer
      = (List.replicate (6 * detail ^ 2 * (2 * radius - 1) ^ 2).toNat none, false) := by
    simp only [bufferData, sizeofGLuint]
    rw [if_neg (by rw [mul_assoc]; omega), mul_assoc,
      Int.mul_ediv_cancel_left _ (by norm_num : (4 : Int) ≠ 0)]
  refine ⟨rfl, rfl, e1, e2, e3, ?_, ?_, ?_, ?_⟩
  · show (bufferData sizeofVertex (sizeofVertex * sq (detail + 1) * sq (2 * radius - 1))
      t.vertexBuffer).1 = _
    rw [e2, e1, bV]
  · show (bufferData sizeofGLuint (sizeofGLuint * (2 * 3 * sq detail) * sq (2 * radius - 1))
      t.elementBuffer).1 = _
    rw [e3, e1, bE]
  · show (t.glError ||
      (bufferData sizeofVertex (sizeofVertex * sq (detail + 1) * sq (2 * radius - 1))
        t.vertexBuffer).2 ||
      (bufferData sizeofGLuint (sizeofGLuint * (2 * 3 * sq detail) * sq (2 * radius - 1))
        t.elementBuffer).2) = _
    rw [e3, e2, e1, bV, bE]
    simp
  · show t.glCalls ++
      [GLCall.glBufferData BufferTarget.GL_ARRAY_BUFFER
          (sizeofVertex * sq (detail + 1) * sq (2 * radius - 1)),
       GLCall.glBufferData BufferTarget.GL_ELEMENT_ARRAY_BUFFER
          (sizeofGLuint * (2 * 3 * sq detail) * sq (2 * radius - 1))] = _
    rw [e3, e2, e1]

/-- C10: after `reset(radius, detail)` followed by any sequence of
`updateChunk` calls (that return), `draw()` submits exactly one call, a
`GL_TRIANGLES` draw that starts at index 0 and whose index count is
`m_elementsPerChunk * m_chunks = 6 * detail^2 * (2*radius - 1)^2`, which is
the number of index elements that `reset` allocated for the index buffer;
`draw()` changes neither buffer. -/
theorem draw_after_updates (t0 : TerrainRenderer) (radius detail : Int)
    (us : List ChunkUpdate) (t : TerrainRenderer)
    (hok : updateChunks (reset t0 radius detail) us = Except.ok t) :
    (draw t).glCalls = t.glCalls ++
      [GLCall.glDrawElements DrawMode.GL_TRIANGLES
        (6 * detail ^ 2 * (2 * radius - 1) ^ 2) 0] ∧
    t.m_elementsPerChunk * t.m_chunks = 6 * detail ^ 2 * (2 * radius - 1) ^ 2 ∧
    (t.elementBuffer.length : Int) = 6 * detail ^ 2 * (2 * radius - 1) ^ 2 ∧
    ((reset t0 radius detail).elementBuffer.length : Int)
      = 6 * detail ^ 2 * (2 * radius - 1) ^ 2 ∧
    (draw t).elementBuffer = t.elementBuffer ∧
    (draw t).vertexBuffer = t.vertexBuffer := by
  have hc := updateChunks_configured us _ t radius detail (reset_configured t0 radius detail) hok
  have hc0 := reset_configured t0 radius detail
  have count : ∀ u : TerrainRenderer, Configured u radius detail →
      u.m_elementsPerChunk * u.m_chunks = 6 * detail ^ 2 * (2 * radius - 1) ^ 2 := by
    intro u hu
    rw [hu.2.2.2.1, hu.2.2.1, sq, sq]
    ring
  refine ⟨?_, count t hc, ?_, ?_, rfl, rfl⟩
  · show t.glCalls ++ [GLCall.glDrawElements DrawMode.GL_TRIANGLES
      (t.m_elementsPerChunk * t.m_chunks) 0] = _
    rw [count t hc]
  · rw [hc.2.2.2.2.2.2, count t hc]
  · rw [hc0.2.2.2.2.2.2, count _ hc0]

/-- Witness of C10: `reset(2, 1)` followed by one `updateChunk(0, 0, 0, 0, h)`. -/
theorem draw_after_updates_witness :
    ∃ t, updateChunks (reset blank 2 1)
        [{ chunk_x := 0, chunk_y := 0, coord_x := 0, coord_y := 0,
           chunk_heights := [1, 2, 3, 4] }] = Except.ok t ∧
      (draw t).glCalls = t.glCalls ++
        [GLCall.glDrawElements DrawMode.GL_TRIANGLES (6 * 1 ^ 2 * (2 * 2 - 1) ^ 2) 0] ∧
      t.m_elementsPerChunk * t.m_chunks = 6 * 1 ^ 2 * (2 * 2 - 1) ^ 2 ∧
      (t.elementBuffer.length : Int) = 6 * 1 ^ 2 * (2 * 2 - 1) ^ 2 ∧
      ((reset blank 2 1).elementBuffer.length : Int) = 6 * 1 ^ 2 * (2 * 2 - 1) ^ 2 ∧
      (draw t).elementBuffer = t.elementBuffer ∧
      (draw t).vertexBuffer = t.vertexBuffer := by
  have h1 := updateChunk_slot (reset blank 2 1) 2 1 (by decide) (reset_configured blank 2 1)
    0 0 0 0 [1, 2, 3, 4] (by decide) 4 (by decide) (by decide)
  obtain ⟨t, ht⟩ : ∃ t, updateChunks (reset blank 2 1)
      [{ chunk_x := 0, chunk_y := 0, coord_x := 0, coord_y := 0,
         chunk_heights := [1, 2, 3, 4] }] = Except.ok t := by
    simp only [updateChunks, h1]
    exact ⟨_, rfl⟩
  exact ⟨t, ht, draw_after_updates blank 2 1 _ t ht⟩

/-- C12: `reset` is idempotent.  For every state `t` (whatever `updateChunk`
wrote into it before) and every radius and detail (so for every valid pair),
`reset(radius, detail)` performed twice leaves the same stored radius, detail
and derived sizes, the same two buffers and the same error flag as performed
once, and in both cases every element of both buffers is undefined: no chunk
content survives, the buffers after `reset` being the same from whatever state
it starts. -/
theorem reset_idempotent (t : TerrainRenderer) (radius detail : Int) :
    (reset (reset t radius detail) radius detail).m_radius = (reset t radius detail).m_radius ∧
    (reset (reset t radius detail) radius detail).m_detail = (reset t radius detail).m_detail ∧
    (reset (reset t radius detail) radius detail).m_chunks = (reset t radius detail).m_chunks ∧
    (reset (reset t radius detail) radius detail).m_elementsPerChunk
      = (reset t radius detail).m_elementsPerChunk ∧
    (reset (reset t radius detail) radius detail).m_verticesPerChunk
      = (reset t radius detail).m_verticesPerChunk ∧
    (reset (reset t radius detail) radius detail).vertexBuffer
      = (reset t radius detail).vertexBuffer ∧
    (reset (reset t radius detail) radius detail).elementBuffer
      = (reset t radius detail).elementBuffer ∧
    (reset (reset t radius detail) radius detail).glError = (reset t radius detail).glError ∧
    (∀ v ∈ (reset t radius detail).vertexBuffer, v = none) ∧
    (∀ e ∈ (reset t radius detail).elementBuffer, e = none) ∧
    (∀ t1 : TerrainRenderer,
      (reset t1 radius detail).vertexBuffer = (reset t radius detail).vertexBuffer ∧
      (reset t1 radius detail).elementBuffer = (reset t radius detail).elementBuffer) ∧
    ((reset t radius detail).vertexBuffer.length : Int)
      = (reset t radius detail).m_verticesPerChunk * (reset t radius detail).m_chunks ∧
    ((reset t radius detail).elementBuffer.length : Int)
      = (reset t radius detail).m_elementsPerChunk * (reset t radius detail).m_chunks := by
  have hV : ¬ sizeofVertex * sq (detail + 1) * sq (2 * radius - 1) < 0 := by
    have : 0 ≤ sq (detail + 1) * sq (2 * radius - 1) :=
      mul_nonneg (mul_self_nonneg _) (mul_self_nonneg _)
    simp only [sizeofVertex]
    rw [mul_assoc]; omega
  have hE : ¬ sizeofGLuint * (2 * 3 * sq detail) * sq (2 * radius - 1) < 0 := by
    have : 0 ≤ 2 * 3 * sq detail * sq (2 * radius - 1) :=
      mul_nonneg (mul_nonneg (by norm_num) (mul_self_nonneg _)) (mul_self_nonneg _)
    simp only [sizeofGLuint]
    rw [mul_assoc]; omega
  have hc := reset_configured t radius detail
  refine ⟨rfl, rfl, rfl, rfl, rfl, ?_, ?_, ?_, ?_, ?_, ?_, hc.2.2.2.2.2.1, hc.2.2.2.2.2.2⟩
  · simp only [reset, bufferData, if_neg hV]
  · simp only [reset, bufferData, if_neg hE]
  · simp only [reset, bufferData, if_neg hV, if_neg hE, Bool.or_false]
  · intro v hv
    simp only [reset, bufferData, if_neg hV] at hv
    exact (List.mem_replicate.mp hv).2
  · intro e he
    simp only [reset, bufferData, if_neg hE] at he
    exact (List.mem_replicate.mp he).2
  · intro t1
    constructor
    · simp only [reset, bufferData, if_neg hV]
    · simp only [reset, bufferData, if_neg hE]

/-- C13: in exact arithmetic, on a state sized by `reset(radius, detail)` with
detail ≥ 1, for every in-range chunk and every world offset, the texture
coordinate of the vertex that `updateChunk` writes at grid position `(i, j)`
is `(i/detail - 1/2, j/detail - 1/2)`: it equals `(x - coord_x, y - coord_y)`,
involves neither the chunk coordinate nor the world offset, has both
components in `[-1/2, 1/2]`, and reaches `-1/2` at index 0 and `1/2` at index
`detail`. -/
theorem updateChunk_texcoords (t : TerrainRenderer) (radius detail : Int)
    (hr : 1 ≤ radius) (hd : 1 ≤ detail) (ht : Configured t radius detail)
    (cx cy coord_x coord_y : Int) (heights : List ℚ)
    (hx : -(radius - 1) ≤ cx ∧ cx ≤ radius - 1) (hy : -(radius - 1) ≤ cy ∧ cy ≤ radius - 1)
    (hlen : (heights.length : Int) = t.m_verticesPerChunk) :
    ∃ t', updateChunk t cx cy coord_x coord_y heights = Except.ok t' ∧
      ∀ p i j c : Nat, (p : Int) = t.m_verticesPerChunk * chunkOffset radius cx cy →
        (i : Int) ≤ detail → (j : Int) ≤ detail → (c : Int) = i * (detail + 1) + j →
        ∃ v : Vertex, t'.vertexBuffer[p + c]? = some (some v) ∧
          v.texcoords = ((i : ℚ) / (detail : ℚ) - 1 / 2, (j : ℚ) / (detail : ℚ) - 1 / 2) ∧
          v.texcoords = (v.position.1 - coord_x, v.position.2.1 - coord_y) ∧
          (-1 / 2 ≤ v.texcoords.1 ∧ v.texcoords.1 ≤ 1 / 2) ∧
          (-1 / 2 ≤ v.texcoords.2 ∧ v.texcoords.2 ≤ 1 / 2) ∧
          (i = 0 → v.texcoords.1 = -1 / 2) ∧ ((i : Int) = detail → v.texcoords.1 = 1 / 2) ∧
          (j = 0 → v.texcoords.2 = -1 / 2) ∧ ((j : Int) = detail → v.texcoords.2 = 1 / 2) := by
  obtain ⟨t', hok, hv⟩ :=
    updateChunk_gridVertex t radius detail hr hd ht cx cy coord_x coord_y heights hx hy hlen
  refine ⟨t', hok, ?_⟩
  intro p i j c hp hi hj hc
  have hdq : (0 : ℚ) < (detail : ℚ) := by exact_mod_cast (by omega : (0 : Int) < detail)
  have hiq : ((i : ℚ)) ≤ (detail : ℚ) := by exact_mod_cast hi
  have hjq : ((j : ℚ)) ≤ (detail : ℚ) := by exact_mod_cast hj
  have hi0 : (0 : ℚ) ≤ (i : ℚ) := Nat.cast_nonneg i
  have hj0 : (0 : ℚ) ≤ (j : ℚ) := Nat.cast_nonneg j
  have bi0 : 0 ≤ (i : ℚ) / (detail : ℚ) := div_nonneg hi0 (le_of_lt hdq)
  have bj0 : 0 ≤ (j : ℚ) / (detail : ℚ) := div_nonneg hj0 (le_of_lt hdq)
  have bi1 : (i : ℚ) / (detail : ℚ) ≤ 1 := (div_le_one hdq).mpr hiq
  have bj1 : (j : ℚ) / (detail : ℚ) ≤ 1 := (div_le_one hdq).mpr hjq
  have tc : (gridVertex detail coord_x coord_y i j (heights.getD c 0)).texcoords
      = ((i : ℚ) / (detail : ℚ) - 1 / 2, (j : ℚ) / (detail : ℚ) - 1 / 2) := by
    simp only [gridVertex, one_mul]
    rw [Prod.mk.injEq]
    constructor <;> ring
  refine ⟨_, (hv p i j c hp hi hj hc).2, tc, ?_, ?_, ?_, ?_, ?_, ?_, ?_⟩
  · simp only [gridVertex]
  · rw [tc]; constructor <;> simp only <;> linarith
  · rw [tc]; constructor <;> simp only <;> linarith
  · intro h0; rw [tc, h0]; norm_num
  · intro h1
    have : (i : ℚ) = (detail : ℚ) := by exact_mod_cast h1
    rw [tc, this, div_self (ne_of_gt hdq)]; norm_num
  · intro h0; rw [tc, h0]; norm_num
  · intro h1
    have : (j : ℚ) = (detail : ℚ) := by exact_mod_cast h1
    rw [tc, this, div_self (ne_of_gt hdq)]; norm_num

/-- Witness of C13: radius 2, detail 2, chunk (1, 0), world offset (5, -3). -/
theorem updateChunk_texcoords_witness :
    (1 ≤ (2 : Int)) ∧
    (1 ≤ (2 : Int)) ∧
    (Configured (reset blank 2 2) (2 : Int) (2 : Int)) ∧
    (-((2 : Int) - 1) ≤ (1 : Int) ∧ (1 : Int) ≤ (2 : Int) - 1) ∧
    (-((2 : Int) - 1) ≤ (0 : Int) ∧ (0 : Int) ≤ (2 : Int) - 1) ∧
    ((([0, 1, 2, 3, 4, 5, 6, 7, 8] : List ℚ).length : Int) = (reset blank 2 2).m_verticesPerChunk) ∧
    (∃ t', updateChunk (reset blank 2 2) (1 : Int) (0 : Int) (5 : Int) (-3 : Int) ([0, 1, 2, 3, 4, 5, 6, 7, 8] : List ℚ) = Except.ok t' ∧
        ∀ p i j c : Nat, (p : Int) = (reset blank 2 2).m_verticesPerChunk * chunkOffset (2 : Int) (1 : Int) (0 : Int) →
          (i : Int) ≤ (2 : Int) → (j : Int) ≤ (2 : Int) → (c : Int) = i * ((2 : Int) + 1) + j →
          ∃ v : Vertex, t'.vertexBuffer[p + c]? = some (some v) ∧
            v.texcoords = ((i : ℚ) / ((2 : Int) : ℚ) - 1 / 2, (j : ℚ) / ((2 : Int) : ℚ) - 1 / 2) ∧
            v.texcoords = (v.position.1 - (5 : Int), v.position.2.1 - (-3 : Int)) ∧
            (-1 / 2 ≤ v.texcoords.1 ∧ v.texcoords.1 ≤ 1 / 2) ∧
            (-1 / 2 ≤ v.texcoords.2 ∧ v.texcoords.2 ≤ 1 / 2) ∧
            (i = 0 → v.texcoords.1 = -1 / 2) ∧ ((i : Int) = (2 : Int) → v.texcoords.1 = 1 / 2) ∧
            (j = 0 → v.texcoords.2 = -1 / 2) ∧ ((j : Int) = (2 : Int) → v.texcoords.2 = 1 / 2)) :=
  ⟨by decide, by decide, reset_configured blank 2 2, by decide, by decide, by decide,
    updateChunk_texcoords (reset blank 2 2) (2 : Int) (2 : Int) (by decide) (by decide) (reset_configured blank 2 2) (1 : Int) (0 : Int) (5 : Int) (-3 : Int) ([0, 1, 2, 3, 4, 5, 6, 7, 8] : List ℚ) (by decide) (by decide) (by decide)⟩

/-- C15: on a state sized by `reset(radius, detail)` with detail ≥ 1, for every
chunk coordinate, the index loop produces exactly
`indicesPerChunk = 6*detail^2` indices and, given `verticesPerChunk` heights
or more, the vertex loop produces exactly `verticesPerChunk = (detail+1)^2`
vertices, so the call passes both assertions and returns; and whatever the
heights are, the call never ends in one of the two assertions. -/
theorem updateChunk_asserts_hold (t : TerrainRenderer) (radius detail : Int)
    (hd : 1 ≤ detail) (ht : Configured t radius detail) (cx cy x y : Int) (h : List ℚ)
    (hlen : t.m_verticesPerChunk ≤ (h.length : Int)) :
    (∃ (c : Nat) (vertices : List Vertex),
      vertexLoop t.m_detail x y h = Except.ok (c, vertices) ∧
      (vertices.length : Int) = t.m_verticesPerChunk ∧
      (vertices.length : Int) = (detail + 1) ^ 2) ∧
    ((elementLoop t.m_detail
        (t.m_verticesPerChunk * chunkOffset t.m_radius cx cy)).length : Int)
      = t.m_elementsPerChunk ∧
    ((elementLoop t.m_detail
        (t.m_verticesPerChunk * chunkOffset t.m_radius cx cy)).length : Int)
      = 6 * detail ^ 2 ∧
    (∃ t', updateChunk t cx cy x y h = Except.ok t') ∧
    (∀ h' : List ℚ,
      updateChunk t cx cy x y h' ≠ Except.error Fault.assertElements ∧
      updateChunk t cx cy x y h' ≠ Except.error Fault.assertVertices) := by
  have hd0 : 0 ≤ detail := by omega
  have hdt : t.m_detail = detail := ht.2.1
  have cV := verticesPerChunk_cast detail hd0
  have cE := elementsPerChunk_cast detail hd0
  have eV : sq (detail + 1) = (detail + 1) ^ 2 := by rw [sq, pow_two]
  have eE : 2 * 3 * sq detail = 6 * detail ^ 2 := by rw [sq, pow_two]; norm_num
  have hle : (detail + 1).toNat * (detail + 1).toNat ≤ h.length := by
    have : (((detail + 1).toNat * (detail + 1).toNat : Nat) : Int) ≤ (h.length : Int) := by
      rw [cV, ← ht.2.2.2.2.1]; exact hlen
    exact_mod_cast this
  refine ⟨⟨(detail + 1).toNat * (detail + 1).toNat, chunkVertices detail x y h, ?_, ?_, ?_⟩,
    ?_, ?_, ⟨_, updateChunk_eq t radius detail hd0 ht cx cy x y h hle⟩, ?_⟩
  · rw [vertexLoop_eq, hdt, if_pos hle]
  · rw [chunkVertices_length, cV, ht.2.2.2.2.1]
  · rw [chunkVertices_length, cV, eV]
  · rw [hdt, elementLoop_length, cE, ht.2.2.2.1]
  · rw [hdt, elementLoop_length, cE, eE]
  · intro h'
    by_cases hs : (detail + 1).toNat * (detail + 1).toNat ≤ h'.length
    · rw [updateChunk_eq t radius detail hd0 ht cx cy x y h' hs]
      exact ⟨by simp, by simp⟩
    · rw [updateChunk_short t cx cy x y h' (by rw [hdt]; omega)]
      exact ⟨by simp, by simp⟩

/-- Witness of C15: radius 2, detail 2, chunk coordinate (7, -4), nine heights. -/
theorem updateChunk_asserts_hold_witness :
    (1 ≤ (2 : Int)) ∧
    (Configured (reset blank 2 2) (2 : Int) (2 : Int)) ∧
    ((reset blank 2 2).m_verticesPerChunk ≤ (([0, 1, 2, 3, 4, 5, 6, 7, 8] : List ℚ).length : Int)) ∧
    ((∃ (c : Nat) (vertices : List Vertex),
        vertexLoop (reset blank 2 2).m_detail (0 : Int) (0 : Int) ([0, 1, 2, 3, 4, 5, 6, 7, 8] : List ℚ) = Except.ok (c, vertices) ∧
        (vertices.length : Int) = (reset blank 2 2).m_verticesPerChunk ∧
        (vertices.length : Int) = ((2 : Int) + 1) ^ 2) ∧
      ((elementLoop (reset blank 2 2).m_detail
          ((reset blank 2 2).m_verticesPerChunk * chunkOffset (reset blank 2 2).m_radius (7 : Int) (-4 : Int))).length : Int)
        = (reset blank 2 2).m_elementsPerChunk ∧
      ((elementLoop (reset blank 2 2).m_detail
          ((reset blank 2 2).m_verticesPerChunk * chunkOffset (reset blank 2 2).m_radius (7 : Int) (-4 : Int))).length : Int)
        = 6 * (2 : Int) ^ 2 ∧
      (∃ t', updateChunk (reset blank 2 2) (7 : Int) (-4 : Int) (0 : Int) (0 : Int) ([0, 1, 2, 3, 4, 5, 6, 7, 8] : List ℚ) = Except.ok t') ∧
      (∀ h' : List ℚ,
        updateChunk (reset blank 2 2) (7 : Int) (-4 : Int) (0 : Int) (0 : Int) h' ≠ Except.error Fault.assertElements ∧
        updateChunk (reset blank 2 2) (7 : Int) (-4 : Int) (0 : Int) (0 : Int) h' ≠ Except.error Fault.assertVertices)) :=
  ⟨by decide, reset_configured blank 2 2, by decide,
    updateChunk_asserts_hold (reset blank 2 2) (2 : Int) (2 : Int) (by decide) (reset_configured blank 2 2) (7 : Int) (-4 : Int) (0 : Int) (0 : Int) ([0, 1, 2, 3, 4, 5, 6, 7, 8] : List ℚ) (by decide)⟩

/-- C16: on a state sized by `reset(radius, detail)` with radius ≥ 1 and
detail ≥ 1, for every in-range chunk both regions written by `updateChunk` lie
inside the buffers: with `s` the chunk's slot, `s ≥ 0`, the vertex window ends
at `(s+1)*verticesPerChunk ≤ verticesPerChunk*chunkCount`, the length of the
vertex buffer, and the index window ends at
`(s+1)*indicesPerChunk ≤ indicesPerChunk*chunkCount`, the length of the index
buffer, with equality for the last slot (`cx = cy = radius-1`); GL accepts both
writes and neither buffer changes its length.  The windows tile each buffer:
every position of a buffer lies in the window of exactly one in-range chunk. -/
theorem slot_windows_in_buffers (t : TerrainRenderer) (radius detail : Int)
    (hr : 1 ≤ radius) (hd : 1 ≤ detail) (ht : Configured t radius detail)
    (cx cy x y : Int) (h : List ℚ)
    (hx : -(radius - 1) ≤ cx ∧ cx ≤ radius - 1) (hy : -(radius - 1) ≤ cy ∧ cy ≤ radius - 1)
    (hlen : (h.length : Int) = t.m_verticesPerChunk) :
    0 ≤ chunkOffset radius cx cy ∧
    (chunkOffset radius cx cy + 1) * t.m_verticesPerChunk
      ≤ t.m_verticesPerChunk * t.m_chunks ∧
    (t.vertexBuffer.length : Int) = t.m_verticesPerChunk * t.m_chunks ∧
    (chunkOffset radius cx cy + 1) * t.m_elementsPerChunk
      ≤ t.m_elementsPerChunk * t.m_chunks ∧
    (t.elementBuffer.length : Int) = t.m_elementsPerChunk * t.m_chunks ∧
    (chunkOffset radius (radius - 1) (radius - 1) + 1) * t.m_verticesPerChunk
      = t.m_verticesPerChunk * t.m_chunks ∧
    (chunkOffset radius (radius - 1) (radius - 1) + 1) * t.m_elementsPerChunk
      = t.m_elementsPerChunk * t.m_chunks ∧
    (∃ t', updateChunk t cx cy x y h = Except.ok t' ∧ t'.glError = t.glError ∧
      t'.vertexBuffer.length = t.vertexBuffer.length ∧
      t'.elementBuffer.length = t.elementBuffer.length) ∧
    (∀ k : Nat, k < t.vertexBuffer.length →
      ∃ cx' cy', (-(radius - 1) ≤ cx' ∧ cx' ≤ radius - 1) ∧
        (-(radius - 1) ≤ cy' ∧ cy' ≤ radius - 1) ∧
        chunkOffset radius cx' cy' * t.m_verticesPerChunk ≤ k ∧
        (k : Int) < (chunkOffset radius cx' cy' + 1) * t.m_verticesPerChunk ∧
        ∀ cx'' cy'', (-(radius - 1) ≤ cx'' ∧ cx'' ≤ radius - 1) →
          (-(radius - 1) ≤ cy'' ∧ cy'' ≤ radius - 1) →
          chunkOffset radius cx'' cy'' * t.m_verticesPerChunk ≤ k →
          (k : Int) < (chunkOffset radius cx'' cy'' + 1) * t.m_verticesPerChunk →
          cx'' = cx' ∧ cy'' = cy') ∧
    (∀ k : Nat, k < t.elementBuffer.length →
      ∃ cx' cy', (-(radius - 1) ≤ cx' ∧ cx' ≤ radius - 1) ∧
        (-(radius - 1) ≤ cy' ∧ cy' ≤ radius - 1) ∧
        chunkOffset radius cx' cy' * t.m_elementsPerChunk ≤ k ∧
        (k : Int) < (chunkOffset radius cx' cy' + 1) * t.m_elementsPerChunk ∧
        ∀ cx'' cy'', (-(radius - 1) ≤ cx'' ∧ cx'' ≤ radius - 1) →
          (-(radius - 1) ≤ cy'' ∧ cy'' ≤ radius - 1) →
          chunkOffset radius cx'' cy'' * t.m_elementsPerChunk ≤ k →
          (k : Int) < (chunkOffset radius cx'' cy'' + 1) * t.m_elementsPerChunk →
          cx'' = cx' ∧ cy'' = cy') := by
  obtain ⟨o1, o2⟩ := chunkOffset_range radius cx cy hr hx hy
  obtain ⟨_, _, hC, hE, hV, hvl, hel⟩ := ht
  have pV : 0 < t.m_verticesPerChunk := by
    rw [hV, sq]; exact mul_pos (by omega) (by omega)
  have pE : 0 < t.m_elementsPerChunk := by
    rw [hE, sq]; exact mul_pos (by norm_num) (mul_pos (by omega) (by omega))
  have hlast : chunkOffset radius (radius - 1) (radius - 1) + 1 = t.m_chunks := by
    rw [hC]; simp only [chunkOffset, sq]; ring
  obtain ⟨t', s, V, E, _, _, _, _, _, _, _, _, _, hok, hvb, heb, herr, _⟩ :=
    updateChunk_inRange t radius detail hr hd ⟨‹_›, ‹_›, hC, hE, hV, hvl, hel⟩
      cx cy x y h hx hy hlen
  refine ⟨o1, ?_, hvl, ?_, hel, ?_, ?_, ⟨t', hok, herr, ?_, ?_⟩, ?_, ?_⟩
  · rw [mul_comm]
    exact mul_le_mul_of_nonneg_left (by rw [hC]; omega) (le_of_lt pV)
  · rw [mul_comm]
    exact mul_le_mul_of_nonneg_left (by rw [hC]; omega) (le_of_lt pE)
  · rw [hlast, mul_comm]
  · rw [hlast, mul_comm]
  · rw [hvb, writeAt_length]
  · rw [heb, writeAt_length]
  · intro k hk
    exact window_tiling radius _ hr pV k (by rw [← hC, ← hvl]; exact_mod_cast hk)
  · intro k hk
    exact window_tiling radius _ hr pE k (by rw [← hC, ← hel]; exact_mod_cast hk)

/-- Witness of C16: radius 2, detail 1, the last chunk (1, 1). -/
theorem slot_windows_in_buffers_witness :
    (1 ≤ (2 : Int)) ∧
    (1 ≤ (1 : Int)) ∧
    (Configured (reset blank 2 1) (2 : Int) (1 : Int)) ∧
    (-((2 : Int) - 1) ≤ (1 : Int) ∧ (1 : Int) ≤ (2 : Int) - 1) ∧
    (-((2 : Int) - 1) ≤ (1 : Int) ∧ (1 : Int) ≤ (2 : Int) - 1) ∧
    ((([1, 2, 3, 4] : List ℚ).length : Int) = (reset blank 2 1).m_verticesPerChunk) ∧
    (0 ≤ chunkOffset (2 : Int) (1 : Int) (1 : Int) ∧
      (chunkOffset (2 : Int) (1 : Int) (1 : Int) + 1) * (reset blank 2 1).m_verticesPerChunk
        ≤ (reset blank 2 1).m_verticesPerChunk * (reset blank 2 1).m_chunks ∧
      ((reset blank 2 1).vertexBuffer.length : Int) = (reset blank 2 1).m_verticesPerChunk * (reset blank 2 1).m_chunks ∧
      (chunkOffset (2 : Int) (1 : Int) (1 : Int) + 1) * (reset blank 2 1).m_elementsPerChunk
        ≤ (reset blank 2 1).m_elementsPerChunk * (reset blank 2 1).m_chunks ∧
      ((reset blank 2 1).elementBuffer.length : Int) = (reset blank 2 1).m_elementsPerChunk * (reset blank 2 1).m_chunks ∧
      (chunkOffset (2 : Int) ((2 : Int) - 1) ((2 : Int) - 1) + 1) * (reset blank 2 1).m_verticesPerChunk
        = (reset blank 2 1).m_verticesPerChunk * (reset blank 2 1).m_chunks ∧
      (chunkOffset (2 : Int) ((2 : Int) - 1) ((2 : Int) - 1) + 1) * (reset blank 2 1).m_elementsPerChunk
        = (reset blank 2 1).m_elementsPerChunk * (reset blank 2 1).m_chunks ∧
      (∃ t', updateChunk (reset blank 2 1) (1 : Int) (1 : Int) (0 : Int) (0 : Int) ([1, 2, 3, 4] : List ℚ) = Except.ok t' ∧ t'.glError = (reset blank 2 1).glError ∧
        t'.vertexBuffer.length = (reset blank 2 1).vertexBuffer.length ∧
        t'.elementBuffer.length = (reset blank 2 1).elementBuffer.length) ∧
      (∀ k : Nat, k < (reset blank 2 1).vertexBuffer.length →
        ∃ cx' cy', (-((2 : Int) - 1) ≤ cx' ∧ cx' ≤ (2 : Int) - 1) ∧
          (-((2 : Int) - 1) ≤ cy' ∧ cy' ≤ (2 : Int) - 1) ∧
          chunkOffset (2 : Int) cx' cy' * (reset blank 2 1).m_verticesPerChunk ≤ k ∧
          (k : Int) < (chunkOffset (2 : Int) cx' cy' + 1) * (reset blank 2 1).m_verticesPerChunk ∧
          ∀ cx'' cy'', (-((2 : Int) - 1) ≤ cx'' ∧ cx'' ≤ (2 : Int) - 1) →
            (-((2 : Int) - 1) ≤ cy'' ∧ cy'' ≤ (2 : Int) - 1) →
            chunkOffset (2 : Int) cx'' cy'' * (reset blank 2 1).m_verticesPerChunk ≤ k →
            (k : Int) < (chunkOffset (2 : Int) cx'' cy'' + 1) * (reset blank 2 1).m_verticesPerChunk →
            cx'' = cx' ∧ cy'' = cy') ∧
      (∀ k : Nat, k < (reset blank 2 1).elementBuffer.length →
        ∃ cx' cy', (-((2 : Int) - 1) ≤ cx' ∧ cx' ≤ (2 : Int) - 1) ∧
          (-((2 : Int) - 1) ≤ cy' ∧ cy' ≤ (2 : Int) - 1) ∧
          chunkOffset (2 : Int) cx' cy' * (reset blank 2 1).m_elementsPerChunk ≤ k ∧
          (k : Int) < (chunkOffset (2 : Int) cx' cy' + 1) * (reset blank 2 1).m_elementsPerChunk ∧
          ∀ cx'' cy'', (-((2 : Int) - 1) ≤ cx'' ∧ cx'' ≤ (2 : Int) - 1) →
            (-((2 : Int) - 1) ≤ cy'' ∧ cy'' ≤ (2 : Int) - 1) →
            chunkOffset (2 : Int) cx'' cy'' * (reset blank 2 1).m_elementsPerChunk ≤ k →
            (k : Int) < (chunkOffset (2 : Int) cx'' cy'' + 1) * (reset blank 2 1).m_elementsPerChunk →
            cx'' = cx' ∧ cy'' = cy')) :=
  ⟨by decide, by decide, reset_configured blank 2 1, by decide, by decide, by decide,
    slot_windows_in_buffers (reset blank 2 1) (2 : Int) (1 : Int) (by decide) (by decide) (reset_configured blank 2 1) (1 : Int) (1 : Int) (0 : Int) (0 : Int) ([1, 2, 3, 4] : List ℚ) (by decide) (by decide) (by decide)⟩

/-- C17: on a state sized by `reset(radius, detail)` with detail ≥ 1, every
index `e` that `updateChunk` emits for a chunk with slot `s` refers to a vertex
of that chunk: `verticesPerChunk*s ≤ e < verticesPerChunk*(s+1)`, for every
slot `s ≥ 0`.  For an in-range chunk every emitted index, and every index that
the call leaves in the chunk's window of the index buffer, lies in the chunk's
vertex window, inside the vertex buffer, and in no other slot's window. -/
theorem emitted_indices_in_slot (t : TerrainRenderer) (radius detail : Int)
    (hr : 1 ≤ radius) (hd : 1 ≤ detail) (ht : Configured t radius detail)
    (cx cy x y : Int) (h : List ℚ)
    (hx : -(radius - 1) ≤ cx ∧ cx ≤ radius - 1) (hy : -(radius - 1) ≤ cy ∧ cy ≤ radius - 1)
    (hlen : (h.length : Int) = t.m_verticesPerChunk) :
    (∀ s : Int, 0 ≤ s → ∀ e ∈ elementLoop t.m_detail (t.m_verticesPerChunk * s),
      t.m_verticesPerChunk * s ≤ (e : Int) ∧ (e : Int) < t.m_verticesPerChunk * (s + 1)) ∧
    (∀ e ∈ elementLoop t.m_detail (t.m_verticesPerChunk * chunkOffset radius cx cy),
      t.m_verticesPerChunk * chunkOffset radius cx cy ≤ (e : Int) ∧
      (e : Int) < t.m_verticesPerChunk * (chunkOffset radius cx cy + 1) ∧
      e < t.vertexBuffer.length ∧
      ∀ s' : Int, s' ≠ chunkOffset radius cx cy →
        ¬ (t.m_verticesPerChunk * s' ≤ (e : Int) ∧
           (e : Int) < t.m_verticesPerChunk * (s' + 1))) ∧
    (∃ t', updateChunk t cx cy x y h = Except.ok t' ∧
      ∀ (pe k e : Nat), (pe : Int) = t.m_elementsPerChunk * chunkOffset radius cx cy →
        pe ≤ k → (k : Int) < pe + t.m_elementsPerChunk →
        t'.elementBuffer[k]? = some (some e) →
        t.m_verticesPerChunk * chunkOffset radius cx cy ≤ (e : Int) ∧
        (e : Int) < t.m_verticesPerChunk * (chunkOffset radius cx cy + 1) ∧
        e < t'.vertexBuffer.length) := by
  have hdt : t.m_detail = detail := ht.2.1
  have hV : t.m_verticesPerChunk = (detail + 1) * (detail + 1) := by
    rw [ht.2.2.2.2.1, sq]
  have pV : 0 < t.m_verticesPerChunk := by
    rw [hV]; exact mul_pos (by omega) (by omega)
  obtain ⟨o1, o2⟩ := chunkOffset_range radius cx cy hr hx hy
  have gen : ∀ s : Int, 0 ≤ s → ∀ e ∈ elementLoop t.m_detail (t.m_verticesPerChunk * s),
      t.m_verticesPerChunk * s ≤ (e : Int) ∧
      (e : Int) < t.m_verticesPerChunk * (s + 1) := by
    intro s hs e he
    rw [hdt] at he
    obtain ⟨b1, b2⟩ := elementLoop_bounds detail _ (mul_nonneg (le_of_lt pV) hs) e he
    refine ⟨b1, ?_⟩
    rw [mul_add, mul_one]
    rw [← hV] at b2
    exact b2
  have inBuf : ∀ e : Nat,
      (e : Int) < t.m_verticesPerChunk * (chunkOffset radius cx cy + 1) →
      e < t.vertexBuffer.length := by
    intro e he
    have h1 : t.m_verticesPerChunk * (chunkOffset radius cx cy + 1)
        ≤ t.m_verticesPerChunk * t.m_chunks :=
      mul_le_mul_of_nonneg_left (by rw [ht.2.2.1]; omega) (le_of_lt pV)
    have : (e : Int) < (t.vertexBuffer.length : Int) := by
      rw [ht.2.2.2.2.2.1]; linarith
    exact_mod_cast this
  refine ⟨gen, ?_, ?_⟩
  · intro e he
    obtain ⟨b1, b2⟩ := gen _ o1 e he
    refine ⟨b1, b2, inBuf e b2, ?_⟩
    intro s' hne hcon
    rcases lt_or_gt_of_ne hne with hlt | hgt
    · have : t.m_verticesPerChunk * (s' + 1)
          ≤ t.m_verticesPerChunk * chunkOffset radius cx cy :=
        mul_le_mul_of_nonneg_left (by omega) (le_of_lt pV)
      linarith [hcon.2]
    · have : t.m_verticesPerChunk * (chunkOffset radius cx cy + 1)
          ≤ t.m_verticesPerChunk * s' :=
        mul_le_mul_of_nonneg_left (by omega) (le_of_lt pV)
      linarith [hcon.1]
  · obtain ⟨t', s, V, E, hs, _, _, _, _, cE, _, _, fE, hok, hvb, heb, _, _⟩ :=
      updateChunk_inRange t radius detail hr hd ht cx cy x y h hx hy hlen
    refine ⟨t', hok, ?_⟩
    intro pe k e hpe hk1 hk2 hke
    have hpe' : pe = E * s := by
      have : (pe : Int) = ((E * s : Nat) : Int) := by rw [hpe, hs, Nat.cast_mul, cE]
      exact_mod_cast this
    have hkE : k - pe < E := by
      rw [← cE] at hk2
      omega
    have hk' : k = E * s + (k - pe) := by omega
    rw [heb, hk', writeAt_window _ _ _ _ fE _ hkE] at hke
    injection hke with hke
    have hmem : e ∈ elementLoop t.m_detail
        (t.m_verticesPerChunk * chunkOffset radius cx cy) := by
      rw [hdt, hs]
      exact List.getElem?_mem hke
    obtain ⟨b1, b2⟩ := gen _ o1 e hmem
    refine ⟨b1, b2, ?_⟩
    rw [hvb, writeAt_length]
    exact inBuf e b2

/-- Witness of C17: radius 2, detail 1, chunk (0, 1). -/
theorem emitted_indices_in_slot_witness :
    (1 ≤ (2 : Int)) ∧
    (1 ≤ (1 : Int)) ∧
    (Configured (reset blank 2 1) (2 : Int) (1 : Int)) ∧
    (-((2 : Int) - 1) ≤ (0 : Int) ∧ (0 : Int) ≤ (2 : Int) - 1) ∧
    (-((2 : Int) - 1) ≤ (1 : Int) ∧ (1 : Int) ≤ (2 : Int) - 1) ∧
    ((([1, 2, 3, 4] : List ℚ).length : Int) = (reset blank 2 1).m_verticesPerChunk) ∧
    ((∀ s : Int, 0 ≤ s → ∀ e ∈ elementLoop (reset blank 2 1).m_detail ((reset blank 2 1).m_verticesPerChunk * s),
        (reset blank 2 1).m_verticesPerChunk * s ≤ (e : Int) ∧ (e : Int) < (reset blank 2 1).m_verticesPerChunk * (s + 1)) ∧
      (∀ e ∈ elementLoop (reset blank 2 1).m_detail ((reset blank 2 1).m_verticesPerChunk * chunkOffset (2 : Int) (0 : Int) (1 : Int)),
        (reset blank 2 1).m_verticesPerChunk * chunkOffset (2 : Int) (0 : Int) (1 : Int) ≤ (e : Int) ∧
        (e : Int) < (reset blank 2 1).m_verticesPerChunk * (chunkOffset (2 : Int) (0 : Int) (1 : Int) + 1) ∧
        e < (reset blank 2 1).vertexBuffer.length ∧
        ∀ s' : Int, s' ≠ chunkOffset (2 : Int) (0 : Int) (1 : Int) →
          ¬ ((reset blank 2 1).m_verticesPerChunk * s' ≤ (e : Int) ∧
             (e : Int) < (reset blank 2 1).m_verticesPerChunk * (s' + 1))) ∧
      (∃ t', updateChunk (reset blank 2 1) (0 : Int) (1 : Int) (0 : Int) (0 : Int) ([1, 2, 3, 4] : List ℚ) = Except.ok t' ∧
        ∀ (pe k e : Nat), (pe : Int) = (reset blank 2 1).m_elementsPerChunk * chunkOffset (2 : Int) (0 : Int) (1 : Int) →
          pe ≤ k → (k : Int) < pe + (reset blank 2 1).m_elementsPerChunk →
          t'.elementBuffer[k]? = some (some e) →
          (reset blank 2 1).m_verticesPerChunk * chunkOffset (2 : Int) (0 : Int) (1 : Int) ≤ (e : Int) ∧
          (e : Int) < (reset blank 2 1).m_verticesPerChunk * (chunkOffset (2 : Int) (0 : Int) (1 : Int) + 1) ∧
          e < t'.vertexBuffer.length)) :=
  ⟨by decide, by decide, reset_configured blank 2 1, by decide, by decide, by decide,
    emitted_indices_in_slot (reset blank 2 1) (2 : Int) (1 : Int) (by decide) (by decide) (reset_configured blank 2 1) (0 : Int) (1 : Int) (0 : Int) (0 : Int) ([1, 2, 3, 4] : List ℚ) (by decide) (by decide) (by decide)⟩

/-- C18: on a state sized by `reset(radius, detail)` with detail ≥ 1, for every
slot `s ≥ 0` the index block that `updateChunk` emits covers the chunk: every
vertex position of the window
`[verticesPerChunk*s, verticesPerChunk*(s+1))` occurs among the emitted
indices.  The six indices of sub-cell `(i, j)` are the positions of the four
grid vertices `(i, j)`, `(i, j+1)`, `(i+1, j)`, `(i+1, j+1)` (grid vertex
`(a, b)` being at local position `a*(detail+1) + b`), the fifth and sixth
repeating the second and third; the four are pairwise distinct and each of the
two triangles has three pairwise distinct indices. -/
theorem index_block_covers_chunk (t : TerrainRenderer) (radius detail : Int)
    (hd : 1 ≤ detail) (ht : Configured t radius detail) (s : Int) (hs : 0 ≤ s) :
    (∀ k : Nat, t.m_verticesPerChunk * s ≤ (k : Int) →
      (k : Int) < t.m_verticesPerChunk * (s + 1) →
      k ∈ elementLoop t.m_detail (t.m_verticesPerChunk * s)) ∧
    (∀ i j q : Nat, (i : Int) < detail → (j : Int) < detail →
      (q : Int) = 6 * (i * detail + j) →
      ∃ e0 e1 e2 e3 e4 e5 : Nat,
        [(elementLoop t.m_detail (t.m_verticesPerChunk * s))[q]?,
         (elementLoop t.m_detail (t.m_verticesPerChunk * s))[q + 1]?,
         (elementLoop t.m_detail (t.m_verticesPerChunk * s))[q + 2]?,
         (elementLoop t.m_detail (t.m_verticesPerChunk * s))[q + 3]?,
         (elementLoop t.m_detail (t.m_verticesPerChunk * s))[q + 4]?,
         (elementLoop t.m_detail (t.m_verticesPerChunk * s))[q + 5]?]
          = [some e0, some e1, some e2, some e3, some e4, some e5] ∧
        (e0 : Int) = t.m_verticesPerChunk * s + (i * (detail + 1) + j) ∧
        (e1 : Int) = t.m_verticesPerChunk * s + (i * (detail + 1) + (j + 1)) ∧
        (e2 : Int) = t.m_verticesPerChunk * s + ((i + 1) * (detail + 1) + j) ∧
        (e3 : Int) = t.m_verticesPerChunk * s + ((i + 1) * (detail + 1) + (j + 1)) ∧
        e4 = e1 ∧ e5 = e2 ∧
        (e0 ≠ e1 ∧ e0 ≠ e2 ∧ e0 ≠ e3 ∧ e1 ≠ e2 ∧ e1 ≠ e3 ∧ e2 ≠ e3) ∧
        (e0 ≠ e1 ∧ e1 ≠ e2 ∧ e0 ≠ e2) ∧ (e3 ≠ e4 ∧ e4 ≠ e5 ∧ e3 ≠ e5)) := by
  have hdt : t.m_detail = detail := ht.2.1
  have hV : t.m_verticesPerChunk = (detail + 1) * (detail + 1) := by
    rw [ht.2.2.2.2.1, sq]
  have pV : 0 < t.m_verticesPerChunk := by
    rw [hV]; exact mul_pos (by omega) (by omega)
  have hv : 0 ≤ t.m_verticesPerChunk * s := mul_nonneg (le_of_lt pV) hs
  constructor
  · intro k h1 h2
    rw [hdt]
    refine elementLoop_covers detail _ hd hv k h1 ?_
    rw [mul_add, mul_one] at h2
    rw [← hV]
    exact h2
  · intro i j q hi hj hq
    obtain ⟨e0, e1, e2, e3, e4, e5, g0, g1, g2, g3, g4, g5, c0, c1, c2, c3, c4, c5⟩ :=
      elementLoop_cell detail (t.m_verticesPerChunk * s) hv i j q hi hj hq
    have n1 : ∀ a b : Nat, (a : Int) ≠ (b : Int) → a ≠ b := by
      intro a b hab heq
      exact hab (by rw [heq])
    have e41 : e4 = e1 := by
      have : (e4 : Int) = (e1 : Int) := by rw [c4, c1]
      exact_mod_cast this
    have e52 : e5 = e2 := by
      have : (e5 : Int) = (e2 : Int) := by rw [c5, c2]
      exact_mod_cast this
    have d01 : e0 ≠ e1 := n1 _ _ (by rw [c0, c1]; omega)
    have d02 : e0 ≠ e2 := n1 _ _ (by rw [c0, c2]; omega)
    have d03 : e0 ≠ e3 := n1 _ _ (by rw [c0, c3]; omega)
    have d12 : e1 ≠ e2 := n1 _ _ (by rw [c1, c2]; omega)
    have d13 : e1 ≠ e3 := n1 _ _ (by rw [c1, c3]; omega)
    have d23 : e2 ≠ e3 := n1 _ _ (by rw [c2, c3]; omega)
    refine ⟨e0, e1, e2, e3, e4, e5, ?_, ?_, ?_, ?_, ?_, e41, e52,
      ⟨d01, d02, d03, d12, d13, d23⟩, ⟨d01, d12, d02⟩, ?_⟩
    · rw [hdt, g0, g1, g2, g3, g4, g5]
    · rw [c0]; ring
    · rw [c1]; ring
    · rw [c2]; ring
    · rw [c3]; ring
    · rw [e41, e52]
      exact ⟨fun h => d13 h.symm, d12, fun h => d23 h.symm⟩

/-- Witness of C18: radius 2, detail 2, slot 4. -/
theorem index_block_covers_chunk_witness :
    (1 ≤ (2 : Int)) ∧
    (Configured (reset blank 2 2) (2 : Int) (2 : Int)) ∧
    (0 ≤ (4 : Int)) ∧
    ((∀ k : Nat, (reset blank 2 2).m_verticesPerChunk * (4 : Int) ≤ (k : Int) →
        (k : Int) < (reset blank 2 2).m_verticesPerChunk * ((4 : Int) + 1) →
        k ∈ elementLoop (reset blank 2 2).m_detail ((reset blank 2 2).m_verticesPerChunk * (4 : Int))) ∧
      (∀ i j q : Nat, (i : Int) < (2 : Int) → (j : Int) < (2 : Int) →
        (q : Int) = 6 * (i * (2 : Int) + j) →
        ∃ e0 e1 e2 e3 e4 e5 : Nat,
          [(elementLoop (reset blank 2 2).m_detail ((reset blank 2 2).m_verticesPerChunk * (4 : Int)))[q]?,
           (elementLoop (reset blank 2 2).m_detail ((reset blank 2 2).m_verticesPerChunk * (4 : Int)))[q + 1]?,
           (elementLoop (reset blank 2 2).m_detail ((reset blank 2 2).m_verticesPerChunk * (4 : Int)))[q + 2]?,
           (elementLoop (reset blank 2 2).m_detail ((reset blank 2 2).m_verticesPerChunk * (4 : Int)))[q + 3]?,
           (elementLoop (reset blank 2 2).m_detail ((reset blank 2 2).m_verticesPerChunk * (4 : Int)))[q + 4]?,
           (elementLoop (reset blank 2 2).m_detail ((reset blank 2 2).m_verticesPerChunk * (4 : Int)))[q + 5]?]
            = [some e0, some e1, some e2, some e3, some e4, some e5] ∧
          (e0 : Int) = (reset blank 2 2).m_verticesPerChunk * (4 : Int) + (i * ((2 : Int) + 1) + j) ∧
          (e1 : Int) = (reset blank 2 2).m_verticesPerChunk * (4 : Int) + (i * ((2 : Int) + 1) + (j + 1)) ∧
          (e2 : Int) = (reset blank 2 2).m_verticesPerChunk * (4 : Int) + ((i + 1) * ((2 : Int) + 1) + j) ∧
          (e3 : Int) = (reset blank 2 2).m_verticesPerChunk * (4 : Int) + ((i + 1) * ((2 : Int) + 1) + (j + 1)) ∧
          e4 = e1 ∧ e5 = e2 ∧
          (e0 ≠ e1 ∧ e0 ≠ e2 ∧ e0 ≠ e3 ∧ e1 ≠ e2 ∧ e1 ≠ e3 ∧ e2 ≠ e3) ∧
          (e0 ≠ e1 ∧ e1 ≠ e2 ∧ e0 ≠ e2) ∧ (e3 ≠ e4 ∧ e4 ≠ e5 ∧ e3 ≠ e5))) :=
  ⟨by decide, reset_configured blank 2 2, by decide,
    index_block_covers_chunk (reset blank 2 2) (2 : Int) (2 : Int) (by decide) (reset_configured blank 2 2) (4 : Int) (by decide)⟩

/-- C19: on a state sized by `reset(radius, detail)` with detail ≥ 1 and
heights of length exactly `verticesPerChunk`, the vertex loop of `updateChunk`
never reads outside the heights: it returns with its counter equal to the
number of heights, and the heights of the vertices it pushed, in order, are
the heights themselves, so positions `0, 1, ..., verticesPerChunk-1` are read
once each in increasing order.  The iteration for grid point `(i, j)` starts
with the counter at `c = i*(detail+1) + j`, after `c` pushes, reads
`heights[c]` and leaves the counter at `c + 1`. -/
theorem vertexLoop_reads (t : TerrainRenderer) (radius detail : Int)
    (hd : 1 ≤ detail) (ht : Configured t radius detail) (coord_x coord_y : Int)
    (heights : List ℚ) (hlen : (heights.length : Int) = t.m_verticesPerChunk) :
    ∃ vertices : List Vertex,
      vertexLoop t.m_detail coord_x coord_y heights = Except.ok (heights.length, vertices) ∧
      vertices.length = heights.length ∧
      vertices.map (fun v => v.position.2.2) = heights ∧
      (∀ cx cy : Int, updateChunk t cx cy coord_x coord_y heights
        ≠ Except.error Fault.heightsOutOfBounds) ∧
      ∀ i j c : Nat, (i : Int) ≤ detail → (j : Int) ≤ detail →
        (c : Int) = i * (detail + 1) + j →
        c < heights.length ∧
        ((List.range i).foldlM (vertexRow t.m_detail coord_x coord_y heights) (0, [])).bind
            (fun st =>
              (List.range j).foldlM (vertexBody t.m_detail coord_x coord_y heights i) st)
          = Except.ok (c, vertices.take c) ∧
        vertexBody t.m_detail coord_x coord_y heights i (c, vertices.take c) j
          = Except.ok (c + 1, vertices.take (c + 1)) ∧
        heights[c]? = (vertices[c]?).map (fun v => v.position.2.2) := by
  have hd0 : 0 ≤ detail := by omega
  have hdt : t.m_detail = detail := ht.2.1
  have cV := verticesPerChunk_cast detail hd0
  rw [← ht.2.2.2.2.1] at cV
  have hn : ((detail + 1).toNat : Int) = detail + 1 := Int.toNat_of_nonneg (by omega)
  have hl : heights.length = (detail + 1).toNat * (detail + 1).toNat := by
    have : (heights.length : Int) = (((detail + 1).toNat * (detail + 1).toNat : Nat) : Int) := by
      rw [hlen, cV]
    exact_mod_cast this
  have hmap := chunkVertices_heights detail coord_x coord_y heights hl
  refine ⟨chunkVertices detail coord_x coord_y heights, ?_, ?_, hmap, ?_, ?_⟩
  · rw [vertexLoop_eq, hdt, if_pos (le_of_eq hl.symm), ← hl]
  · rw [chunkVertices_length, hl]
  · intro cx cy
    rw [updateChunk_eq t radius detail hd0 ht cx cy coord_x coord_y heights (le_of_eq hl.symm)]
    simp
  · intro i j c hi hj hc
    have hi' : i < (detail + 1).toNat := by omega
    have hj' : j < (detail + 1).toNat := by omega
    have hc' : c = i * (detail + 1).toNat + j := by
      have : (c : Int) = ((i * (detail + 1).toNat + j : Nat) : Int) := by
        rw [hc]; push_cast; rw [hn]
      exact_mod_cast this
    have hcl : c < heights.length := by
      rw [hc', hl]
      calc i * (detail + 1).toNat + j < i * (detail + 1).toNat + (detail + 1).toNat := by omega
        _ = (i + 1) * (detail + 1).toNat := by ring
        _ ≤ (detail + 1).toNat * (detail + 1).toNat := Nat.mul_le_mul_right _ hi'
    refine ⟨hcl, ?_, ?_, ?_⟩
    · rw [hdt, hc']
      exact vertexLoop_prefix detail coord_x coord_y heights i j (le_of_eq hl.symm) hi' hj'
    · rw [hdt, vertexBody_ok detail coord_x coord_y heights i j c _ hcl,
        chunkVertices_take_eq detail coord_x coord_y heights c (by omega),
        chunkVertices_take_eq detail coord_x coord_y heights (c + 1) (by omega),
        List.range_succ, List.map_append]
      simp only [List.map_cons, List.map_nil]
      rw [hc', vertexAt_grid _ _ _ _ _ i j hj']
    · have := congrArg (fun l => l[c]?) hmap
      simp only [List.getElem?_map] at this
      exact this.symm

/-- Witness of C19: detail 2 and nine heights. -/
theorem vertexLoop_reads_witness :
    (1 ≤ (2 : Int)) ∧
    (Configured (reset blank 2 2) (2 : Int) (2 : Int)) ∧
    ((([0, 1, 2, 3, 4, 5, 6, 7, 8] : List ℚ).length : Int) = (reset blank 2 2).m_verticesPerChunk) ∧
    (∃ vertices : List Vertex,
        vertexLoop (reset blank 2 2).m_detail (0 : Int) (0 : Int) ([0, 1, 2, 3, 4, 5, 6, 7, 8] : List ℚ) = Except.ok (([0, 1, 2, 3, 4, 5, 6, 7, 8] : List ℚ).length, vertices) ∧
        vertices.length = ([0, 1, 2, 3, 4, 5, 6, 7, 8] : List ℚ).length ∧
        vertices.map (fun v => v.position.2.2) = ([0, 1, 2, 3, 4, 5, 6, 7, 8] : List ℚ) ∧
        (∀ cx cy : Int, updateChunk (reset blank 2 2) cx cy (0 : Int) (0 : Int) ([0, 1, 2, 3, 4, 5, 6, 7, 8] : List ℚ)
          ≠ Except.error Fault.heightsOutOfBounds) ∧
        ∀ i j c : Nat, (i : Int) ≤ (2 : Int) → (j : Int) ≤ (2 : Int) →
          (c : Int) = i * ((2 : Int) + 1) + j →
          c < ([0, 1, 2, 3, 4, 5, 6, 7, 8] : List ℚ).length ∧
          ((List.range i).foldlM (vertexRow (reset blank 2 2).m_detail (0 : Int) (0 : Int) ([0, 1, 2, 3, 4, 5, 6, 7, 8] : List ℚ)) (0, [])).bind
              (fun st =>
                (List.range j).foldlM (vertexBody (reset blank 2 2).m_detail (0 : Int) (0 : Int) ([0, 1, 2, 3, 4, 5, 6, 7, 8] : List ℚ) i) st)
            = Except.ok (c, vertices.take c) ∧
          vertexBody (reset blank 2 2).m_detail (0 : Int) (0 : Int) ([0, 1, 2, 3, 4, 5, 6, 7, 8] : List ℚ) i (c, vertices.take c) j
            = Except.ok (c + 1, vertices.take (c + 1)) ∧
          ([0, 1, 2, 3, 4, 5, 6, 7, 8] : List ℚ)[c]? = (vertices[c]?).map (fun v => v.position.2.2)) :=
  ⟨by decide, reset_configured blank 2 2, by decide,
    vertexLoop_reads (reset blank 2 2) (2 : Int) (2 : Int) (by decide) (reset_configured blank 2 2) (0 : Int) (0 : Int) ([0, 1, 2, 3, 4, 5, 6, 7, 8] : List ℚ) (by decide)⟩

/-- C20: neighbouring chunks meet without a gap in the x-y plane, in exact
arithmetic.  On a state sized by `reset(radius, detail)` with detail ≥ 1, for
in-range chunks and integer world offsets `(X, Y)`: the vertices of the last
row (`i = detail`) written with world offset `(X, Y)` have the same x and y as
the vertices of the first row (`i = 0`) written with world offset `(X+1, Y)` at
the same `j`, and the vertices of the last column (`j = detail`) written with
world offset `(X, Y)` have the same x and y as the vertices of the first column
(`j = 0`) written with world offset `(X, Y+1)` at the same `i`. -/
theorem neighbouring_chunks_meet (t : TerrainRenderer) (radius detail : Int)
    (hr : 1 ≤ radius) (hd : 1 ≤ detail) (ht : Configured t radius detail)
    (cx cy cx' cy' X Y : Int) (h h' : List ℚ)
    (hx : -(radius - 1) ≤ cx ∧ cx ≤ radius - 1) (hy : -(radius - 1) ≤ cy ∧ cy ≤ radius - 1)
    (hx' : -(radius - 1) ≤ cx' ∧ cx' ≤ radius - 1)
    (hy' : -(radius - 1) ≤ cy' ∧ cy' ≤ radius - 1)
    (hlen : (h.length : Int) = t.m_verticesPerChunk)
    (hlen' : (h'.length : Int) = t.m_verticesPerChunk) :
    ∃ t1 t2 t3, updateChunk t cx cy X Y h = Except.ok t1 ∧
      updateChunk t cx' cy' (X + 1) Y h' = Except.ok t2 ∧
      updateChunk t cx' cy' X (Y + 1) h' = Except.ok t3 ∧
      ∀ p p' : Nat, (p : Int) = t.m_verticesPerChunk * chunkOffset radius cx cy →
        (p' : Int) = t.m_verticesPerChunk * chunkOffset radius cx' cy' →
        (∀ j c c' : Nat, (j : Int) ≤ detail → (c : Int) = detail * (detail + 1) + j →
          (c' : Int) = 0 * (detail + 1) + j →
          ∃ v v' : Vertex, t1.vertexBuffer[p + c]? = some (some v) ∧
            t2.vertexBuffer[p' + c']? = some (some v') ∧
            v.position.1 = v'.position.1 ∧ v.position.2.1 = v'.position.2.1) ∧
        (∀ i c c' : Nat, (i : Int) ≤ detail → (c : Int) = i * (detail + 1) + detail →
          (c' : Int) = i * (detail + 1) + 0 →
          ∃ v v' : Vertex, t1.vertexBuffer[p + c]? = some (some v) ∧
            t3.vertexBuffer[p' + c']? = some (some v') ∧
            v.position.1 = v'.position.1 ∧ v.position.2.1 = v'.position.2.1) := by
  obtain ⟨t1, hok1, hv1⟩ := updateChunk_gridVertex t radius detail hr hd ht cx cy X Y h hx hy hlen
  obtain ⟨t2, hok2, hv2⟩ :=
    updateChunk_gridVertex t radius detail hr hd ht cx' cy' (X + 1) Y h' hx' hy' hlen'
  obtain ⟨t3, hok3, hv3⟩ :=
    updateChunk_gridVertex t radius detail hr hd ht cx' cy' X (Y + 1) h' hx' hy' hlen'
  have hm : (detail.toNat : Int) = detail := Int.toNat_of_nonneg (by omega)
  have hmq : ((detail.toNat : Nat) : ℚ) = (detail : ℚ) := by
    have : (((detail.toNat : Nat) : Int) : ℚ) = (detail : ℚ) := by rw [hm]
    exact_mod_cast this
  have hdq : (detail : ℚ) ≠ 0 := by
    have : (0 : ℚ) < (detail : ℚ) := by exact_mod_cast (by omega : (0 : Int) < detail)
    exact ne_of_gt this
  refine ⟨t1, t2, t3, hok1, hok2, hok3, ?_⟩
  intro p p' hp hp'
  constructor
  · intro j c c' hj hc hc'
    have g1 := (hv1 p detail.toNat j c hp (by omega) hj (by rw [hm]; exact hc)).2
    have g2 := (hv2 p' 0 j c' hp' (by omega) hj (by push_cast; exact hc')).2
    refine ⟨_, _, g1, g2, ?_, ?_⟩
    · simp only [gridVertex, hmq]
      push_cast
      field_simp
    · simp only [gridVertex]
  · intro i c c' hi hc hc'
    have g1 := (hv1 p i detail.toNat c hp hi (by omega) (by rw [hm]; exact hc)).2
    have g3 := (hv3 p' i 0 c' hp' hi (by omega) (by push_cast; exact hc')).2
    refine ⟨_, _, g1, g3, ?_, ?_⟩
    · simp only [gridVertex]
    · simp only [gridVertex, hmq]
      push_cast
      field_simp

/-- Witness of C20: radius 2, detail 2, chunks (0, 0) and (1, 0), world offset (3, 4). -/
theorem neighbouring_chunks_meet_witness :
    (1 ≤ (2 : Int)) ∧
    (1 ≤ (2 : Int)) ∧
    (Configured (reset blank 2 2) (2 : Int) (2 : Int)) ∧
    (-((2 : Int) - 1) ≤ (0 : Int) ∧ (0 : Int) ≤ (2 : Int) - 1) ∧
    (-((2 : Int) - 1) ≤ (0 : Int) ∧ (0 : Int) ≤ (2 : Int) - 1) ∧
    (-((2 : Int) - 1) ≤ (1 : Int) ∧ (1 : Int) ≤ (2 : Int) - 1) ∧
    (-((2 : Int) - 1) ≤ (0 : Int) ∧ (0 : Int) ≤ (2 : Int) - 1) ∧
    ((([0, 1, 2, 3, 4, 5, 6, 7, 8] : List ℚ).length : Int) = (reset blank 2 2).m_verticesPerChunk) ∧
    ((([8, 7, 6, 5, 4, 3, 2, 1, 0] : List ℚ).length : Int) = (reset blank 2 2).m_verticesPerChunk) ∧
    (∃ t1 t2 t3, updateChunk (reset blank 2 2) (0 : Int) (0 : Int) (3 : Int) (4 : Int) ([0, 1, 2, 3, 4, 5, 6, 7, 8] : List ℚ) = Except.ok t1 ∧
        updateChunk (reset blank 2 2) (1 : Int) (0 : Int) ((3 : Int) + 1) (4 : Int) ([8, 7, 6, 5, 4, 3, 2, 1, 0] : List ℚ) = Except.ok t2 ∧
        updateChunk (reset blank 2 2) (1 : Int) (0 : Int) (3 : Int) ((4 : Int) + 1) ([8, 7, 6, 5, 4, 3, 2, 1, 0] : List ℚ) = Except.ok t3 ∧
        ∀ p p' : Nat, (p : Int) = (reset blank 2 2).m_verticesPerChunk * chunkOffset (2 : Int) (0 : Int) (0 : Int) →
          (p' : Int) = (reset blank 2 2).m_verticesPerChunk * chunkOffset (2 : Int) (1 : Int) (0 : Int) →
          (∀ j c c' : Nat, (j : Int) ≤ (2 : Int) → (c : Int) = (2 : Int) * ((2 : Int) + 1) + j →
            (c' : Int) = 0 * ((2 : Int) + 1) + j →
            ∃ v v' : Vertex, t1.vertexBuffer[p + c]? = some (some v) ∧
              t2.vertexBuffer[p' + c']? = some (some v') ∧
              v.position.1 = v'.position.1 ∧ v.position.2.1 = v'.position.2.1) ∧
          (∀ i c c' : Nat, (i : Int) ≤ (2 : Int) → (c : Int) = i * ((2 : Int) + 1) + (2 : Int) →
            (c' : Int) = i * ((2 : Int) + 1) + 0 →
            ∃ v v' : Vertex, t1.vertexBuffer[p + c]? = some (some v) ∧
              t3.vertexBuffer[p' + c']? = some (some v') ∧
              v.position.1 = v'.position.1 ∧ v.position.2.1 = v'.position.2.1)) :=
  ⟨by decide, by decide, reset_configured blank 2 2, by decide, by decide, by decide, by decide, by decide, by decide,
    neighbouring_chunks_meet (reset blank 2 2) (2 : Int) (2 : Int) (by decide) (by decide) (reset_configured blank 2 2) (0 : Int) (0 : Int) (1 : Int) (0 : Int) (3 : Int) (4 : Int) ([0, 1, 2, 3, 4, 5, 6, 7, 8] : List ℚ) ([8, 7, 6, 5, 4, 3, 2, 1, 0] : List ℚ) (by decide) (by decide) (by decide) (by decide) (by decide) (by decide)⟩

end fly
